import Mathlib

/-!
Verification of the crush compression container pipeline (crush-core).

Shallow embedding of `compression.rs`, `decompression.rs`, `inspection.rs`,
`plugin/metadata.rs`, `plugin/registry.rs`, `plugin/selector.rs`,
`plugin/timeout.rs` and `cancel.rs`.

Modelling conventions:
* Bytes are `Nat` values; wherever the Rust `u8`/`u16`/`u64` machine type
  would truncate, the embedding reduces mod the corresponding power of two.
* f64 scoring arithmetic is modelled over `ℚ`; the natural logarithm used
  for throughput scaling is an abstract parameter `lg : ℚ → ℚ`.
* A compression plugin is a record of pure functions; its cancellation flag
  is a `Bool` snapshot of the `AtomicBool` the Rust code polls.
* Wall-clock durations are `Nat` nanoseconds; the worker thread of the
  timeout executor is modelled by the pair (runtime, result) of the
  operation it runs.
-/

set_option maxHeartbeats 1000000
set_option maxRecDepth 8000

/-! ### Little-endian byte encodings -/

/-- Little-endian bytes of a 64-bit value (`u64::to_le_bytes`). -/
def le64 (n : Nat) : List Nat :=
  [n % 256, n / 256 % 256, n / 65536 % 256, n / 16777216 % 256,
   n / 4294967296 % 256, n / 1099511627776 % 256,
   n / 281474976710656 % 256, n / 72057594037927936 % 256]

/-- Little-endian bytes of a 32-bit value (`u32::to_le_bytes`). -/
def le32 (n : Nat) : List Nat :=
  [n % 256, n / 256 % 256, n / 65536 % 256, n / 16777216 % 256]

/-- Little-endian bytes of a 16-bit value (`u16::to_le_bytes`). -/
def le16 (n : Nat) : List Nat := [n % 256, n / 256 % 256]

/-- Value of a little-endian byte list (`uNN::from_le_bytes`). -/
def leNat (l : List Nat) : Nat := l.foldr (fun b acc => b + 256 * acc) 0

theorem leNat_le64 (n : Nat) : leNat (le64 n) = n % 18446744073709551616 := by
  simp only [le64, leNat, List.foldr]
  omega

theorem leNat_le32 (n : Nat) : leNat (le32 n) = n % 4294967296 := by
  simp only [le32, leNat, List.foldr]
  omega

theorem leNat_le16 (n : Nat) : leNat (le16 n) = n % 65536 := by
  simp only [le16, leNat, List.foldr]
  omega

theorem le64_length (n : Nat) : (le64 n).length = 8 := by simp [le64]

theorem le32_length (n : Nat) : (le32 n).length = 4 := by simp [le32]

/-! ### Error taxonomy (`error.rs`) -/

/-- A 4-byte plugin/container identifier (`[u8; 4]`). -/
structure Magic where
  b0 : Nat
  b1 : Nat
  b2 : Nat
  b3 : Nat
deriving DecidableEq

/-- Byte serialization of a magic number. -/
def Magic.toBytes (m : Magic) : List Nat := [m.b0, m.b1, m.b2, m.b3]

/-- Plugin-specific errors (`PluginError`). -/
inductive PluginError where
  | NotFound (msg : String)
  | DuplicateMagic (m : Magic)
  | InvalidMetadata (msg : String)
  | OperationFailed (msg : String)
  | Cancelled
deriving DecidableEq

/-- Timeout-related errors (`TimeoutError`); the duration is nanoseconds. -/
inductive TimeoutError where
  | Timeout (nanos : Nat)
  | PluginPanic
deriving DecidableEq

/-- Validation errors (`ValidationError`).  `metadata.rs` returns
`ValidationError::InvalidMetadata`; the `error.rs` snapshot in the sources
lists that variant only under `PluginError`, so it is added here as used. -/
inductive ValidationError where
  | InvalidMagic (m : Magic)
  | CrcMismatch (expected actual : Nat)
  | InvalidHeader (msg : String)
  | CorruptedData (msg : String)
  | InvalidWeights (msg : String)
  | InvalidMetadata (msg : String)
deriving DecidableEq

/-- Top-level error type (`CrushError`).  `compression.rs` returns a
top-level `CrushError::Cancelled` variant; the `error.rs` snapshot in the
sources omits that variant even though `compression.rs` and its tests use
it, so it is included here.  `Io` carries no payload in the model. -/
inductive CrushError where
  | Plugin (e : PluginError)
  | Timeout (e : TimeoutError)
  | Validation (e : ValidationError)
  | Io
  | Cancelled
deriving DecidableEq

/-! ### Container header (`plugin/metadata.rs`, `CrushHeader`) -/

/-- The 16-byte container header. -/
structure CrushHeader where
  magic : Magic
  original_size : Nat
  flags : Nat
  reserved : Nat × Nat × Nat
deriving DecidableEq

/-- `CrushHeader::SIZE`. -/
def CrushHeader.SIZE : Nat := 16

/-- `CrushHeader::new`. -/
def CrushHeader.new (magic : Magic) (original_size : Nat) : CrushHeader :=
  { magic := magic, original_size := original_size, flags := 0, reserved := (0, 0, 0) }

/-- `CrushHeader::with_crc32` (sets flag bit 0). -/
def CrushHeader.with_crc32 (h : CrushHeader) : CrushHeader :=
  { h with flags := h.flags ||| 1 }

/-- `CrushHeader::with_metadata` (sets flag bit 1). -/
def CrushHeader.with_metadata (h : CrushHeader) : CrushHeader :=
  { h with flags := h.flags ||| 2 }

/-- Source name `has_valid_prefix`: the first two identifier bytes are "CR". -/
def CrushHeader.magicOk (h : CrushHeader) : Bool :=
  h.magic.b0 = 0x43 && h.magic.b1 = 0x52

/-- Source name `has_valid_version`: the third identifier byte is 0x01. -/
def CrushHeader.versionOk (h : CrushHeader) : Bool :=
  h.magic.b2 = 0x01

/-- `CrushHeader::has_crc32` (flag bit 0). -/
def CrushHeader.has_crc32 (h : CrushHeader) : Bool :=
  h.flags &&& 1 ≠ 0

/-- `CrushHeader::has_metadata` (flag bit 1). -/
def CrushHeader.hasMd (h : CrushHeader) : Bool :=
  h.flags &&& 2 ≠ 0

/-- `CrushHeader::to_bytes`: magic, little-endian size, flags, reserved. -/
def CrushHeader.to_bytes (h : CrushHeader) : List Nat :=
  h.magic.toBytes ++ le64 h.original_size ++ [h.flags] ++
    [h.reserved.1, h.reserved.2.1, h.reserved.2.2]

/-- In the source the version error message formats the byte in hex; the
model prints it in decimal. -/
def unsupportedVersionMsg (v : Nat) : String :=
  "Unsupported version: " ++ toString v

/-- `CrushHeader::from_bytes`.  The Rust function receives exactly 16 bytes
(`[u8; 16]`); the catch-all arm mirrors the unreachable `try_into` failure
message used by the callers. -/
def CrushHeader.from_bytes (l : List Nat) : Except CrushError CrushHeader :=
  match l with
  | [a0, a1, a2, a3, s0, s1, s2, s3, s4, s5, s6, s7, f, r0, r1, r2] =>
    let h : CrushHeader :=
      { magic := ⟨a0, a1, a2, a3⟩,
        original_size := leNat [s0, s1, s2, s3, s4, s5, s6, s7],
        flags := f, reserved := (r0, r1, r2) }
    if ¬ h.magicOk then .error (.Validation (.InvalidMagic h.magic))
    else if ¬ h.versionOk then
      .error (.Validation (.InvalidHeader (unsupportedVersionMsg a2)))
    else .ok h
  | _ => .error (.Validation (.InvalidHeader "Failed to read header"))

theorem to_bytes_length (h : CrushHeader) : h.to_bytes.length = 16 := by
  simp [CrushHeader.to_bytes, Magic.toBytes, le64]

/-- Parsing the serialization of a header with a valid "CR" + version magic
recovers the header, with the original size reduced mod 2^64 (the `u64`
wire width). -/
theorem from_bytes_to_bytes (h : CrushHeader)
    (h0 : h.magic.b0 = 0x43) (h1 : h.magic.b1 = 0x52) (h2 : h.magic.b2 = 0x01) :
    CrushHeader.from_bytes h.to_bytes =
      .ok { h with original_size := h.original_size % 18446744073709551616 } := by
  obtain ⟨⟨b0, b1, b2, b3⟩, n, f, ⟨r0, r1, r2⟩⟩ := h
  simp only [Magic.mk.injEq] at h0 h1 h2
  subst h0 h1 h2
  simp [CrushHeader.to_bytes, Magic.toBytes, le64, CrushHeader.from_bytes,
    CrushHeader.magicOk, CrushHeader.versionOk, leNat_le64]
  have := leNat_le64 n
  simp only [le64] at this
  simp [this]

/-! ### File metadata TLV encoding (`plugin/metadata.rs`, `FileMetadata`) -/

/-- Optional file metadata (`FileMetadata`): mtime is an `i64`, permissions
a `u32` mode word (unix cfg). -/
structure FileMetadata where
  mtime : Option Int := none
  permissions : Option Nat := none
deriving DecidableEq

instance : Inhabited FileMetadata := ⟨{}⟩

/-- Two's-complement `u64` bit pattern of an `i64` value. -/
def i64bits (v : Int) : Nat := (v % 18446744073709551616).toNat

/-- Signed value of a `u64` bit pattern read back as `i64`. -/
def decodeI64 (n : Nat) : Int :=
  if n < 9223372036854775808 then (n : Int) else (n : Int) - 18446744073709551616

theorem decodeI64_i64bits (v : Int)
    (hlo : -9223372036854775808 ≤ v) (hhi : v < 9223372036854775808) :
    decodeI64 (i64bits v) = v := by
  unfold decodeI64 i64bits
  omega

/-- `FileMetadata::to_bytes`: TLV records, tag 0x01 = mtime (8 bytes),
tag 0x02 = permissions (4 bytes). -/
def FileMetadata.to_bytes (m : FileMetadata) : List Nat :=
  (match m.mtime with
   | some v => 1 :: 8 :: le64 (i64bits v)
   | none => []) ++
  (match m.permissions with
   | some p => 2 :: 4 :: le32 p
   | none => [])

/-- Loop body of `FileMetadata::from_bytes`.  The Rust code iterates with a
cursor; the model recurses on the remaining bytes, with a fuel argument
(initialized to the byte count, see `FileMetadata.from_bytes`) so that the
recursion is structural.  Each iteration consumes at least two bytes, so the
fuel never runs out for the initial value. -/
def fromBytesAux : Nat → List Nat → FileMetadata → Except CrushError FileMetadata
  | _, [], acc => .ok acc
  | _, [_], _ => .error (.Validation (.InvalidMetadata "Incomplete TLV record"))
  | 0, _ :: _ :: _, _ =>
    -- unreachable for fuel ≥ length of the byte list
    .error (.Validation (.InvalidMetadata "Incomplete TLV record"))
  | fuel + 1, t :: len :: rest, acc =>
    if rest.length < len then
      .error (.Validation (.InvalidMetadata "Incomplete TLV value"))
    else
      let value := rest.take len
      let rest' := rest.drop len
      if t = 1 then
        if len = 8 then
          fromBytesAux fuel rest' { acc with mtime := some (decodeI64 (leNat value)) }
        else .error (.Validation (.InvalidMetadata "Invalid mtime length"))
      else if t = 2 then
        if len = 4 then
          fromBytesAux fuel rest' { acc with permissions := some (leNat value) }
        else .error (.Validation (.InvalidMetadata "Invalid permissions length"))
      else fromBytesAux fuel rest' acc

/-- `FileMetadata::from_bytes`. -/
def FileMetadata.from_bytes (bytes : List Nat) : Except CrushError FileMetadata :=
  fromBytesAux bytes.length bytes {}

/-! ### CRC-32 (the `crc32fast` dependency, CRC-32/ISO-HDLC) -/

/-- Reflected CRC-32 generator polynomial. -/
def crcPoly : Nat := 0xEDB88320

/-- One bit step of the reflected CRC-32 LFSR. -/
def bitStep (s : Nat) : Nat :=
  if s % 2 = 1 then (s / 2) ^^^ crcPoly else s / 2

/-- One byte step: fold the byte into the state, then run eight bit steps.
The byte is reduced mod 256, as the `u8` machine type does. -/
def byteStep (s b : Nat) : Nat := bitStep^[8] (s ^^^ (b % 256))

/-- CRC-32 of a byte sequence: init `0xFFFFFFFF`, final xor `0xFFFFFFFF`. -/
def crc32 (l : List Nat) : Nat :=
  (l.foldl byteStep 0xFFFFFFFF) ^^^ 0xFFFFFFFF

theorem xor_right_cancel {a b c : Nat} (h : a ^^^ c = b ^^^ c) : a = b := by
  have : (a ^^^ c) ^^^ c = (b ^^^ c) ^^^ c := by rw [h]
  simpa [Nat.xor_assoc] using this

theorem xor_left_cancel {a b c : Nat} (h : c ^^^ a = c ^^^ b) : a = b := by
  rw [Nat.xor_comm c a, Nat.xor_comm c b] at h
  exact xor_right_cancel h

theorem bitStep_lt {s : Nat} (h : s < 4294967296) : bitStep s < 4294967296 := by
  unfold bitStep
  split
  · have h1 : s / 2 < 4294967296 := by omega
    have h2 : crcPoly < 4294967296 := by norm_num [crcPoly]
    have := Nat.xor_lt_two_pow (n := 32) (by simpa using h1) (by simpa using h2)
    simpa using this
  · omega

theorem bitStep_inj {s t : Nat} (hs : s < 4294967296) (ht : t < 4294967296)
    (h : bitStep s = bitStep t) : s = t := by
  have hpoly : ∀ x : Nat, x < 2147483648 → 2147483648 ≤ x ^^^ crcPoly := by
    intro x hx
    by_contra hlt
    push_neg at hlt
    have hbit : (x ^^^ crcPoly).testBit 31 = false :=
      Nat.testBit_lt_two_pow (by simpa using hlt)
    rw [Nat.testBit_xor] at hbit
    have hx31 : x.testBit 31 = false := Nat.testBit_lt_two_pow (by simpa using hx)
    have hp31 : crcPoly.testBit 31 = true := by decide
    simp [hx31, hp31] at hbit
  unfold bitStep at h
  rcases Nat.lt_or_ge (s % 2) 1 with hs2 | hs2 <;> rcases Nat.lt_or_ge (t % 2) 1 with ht2 | ht2
  · -- both even
    have h1 : ¬ s % 2 = 1 := by omega
    have h2 : ¬ t % 2 = 1 := by omega
    simp [h1, h2] at h
    omega
  · -- s even, t odd
    have h1 : ¬ s % 2 = 1 := by omega
    have h2 : t % 2 = 1 := by omega
    simp [h1, h2] at h
    have := hpoly (t / 2) (by omega)
    omega
  · -- s odd, t even
    have h1 : s % 2 = 1 := by omega
    have h2 : ¬ t % 2 = 1 := by omega
    simp [h1, h2] at h
    have := hpoly (s / 2) (by omega)
    omega
  · -- both odd
    have h1 : s % 2 = 1 := by omega
    have h2 : t % 2 = 1 := by omega
    simp only [h1, h2, if_pos rfl] at h
    have := xor_right_cancel h
    omega

theorem bitStep_iter_lt {s : Nat} (n : Nat) (h : s < 4294967296) :
    bitStep^[n] s < 4294967296 := by
  induction n generalizing s with
  | zero => simpa using h
  | succ k ih =>
    rw [Function.iterate_succ_apply]
    exact ih (bitStep_lt h)

theorem bitStep_iter_inj {s t : Nat} (n : Nat) (hs : s < 4294967296)
    (ht : t < 4294967296) (h : bitStep^[n] s = bitStep^[n] t) : s = t := by
  induction n generalizing s t with
  | zero => simpa using h
  | succ k ih =>
    rw [Function.iterate_succ_apply, Function.iterate_succ_apply] at h
    exact bitStep_inj hs ht (ih (bitStep_lt hs) (bitStep_lt ht) h)

theorem byteStep_lt {s : Nat} (b : Nat) (h : s < 4294967296) :
    byteStep s b < 4294967296 := by
  unfold byteStep
  refine bitStep_iter_lt 8 ?_
  have hb : b % 256 < 4294967296 := by omega
  have := Nat.xor_lt_two_pow (n := 32) (by simpa using h) (by simpa using hb)
  simpa using this

theorem byteStep_state_inj {s t : Nat} (b : Nat) (hs : s < 4294967296)
    (ht : t < 4294967296) (h : byteStep s b = byteStep t b) : s = t := by
  unfold byteStep at h
  have hb : b % 256 < 4294967296 := by omega
  have h1 : s ^^^ (b % 256) < 4294967296 := by
    have := Nat.xor_lt_two_pow (n := 32) (by simpa using hs) (by simpa using hb)
    simpa using this
  have h2 : t ^^^ (b % 256) < 4294967296 := by
    have := Nat.xor_lt_two_pow (n := 32) (by simpa using ht) (by simpa using hb)
    simpa using this
  exact xor_right_cancel (bitStep_iter_inj 8 h1 h2 h)

theorem byteStep_byte_ne {s b1 b2 : Nat} (hs : s < 4294967296)
    (hb : b1 % 256 ≠ b2 % 256) : byteStep s b1 ≠ byteStep s b2 := by
  intro h
  unfold byteStep at h
  have hbb1 : b1 % 256 < 4294967296 := by omega
  have hbb2 : b2 % 256 < 4294967296 := by omega
  have h1 : s ^^^ (b1 % 256) < 4294967296 := by
    have := Nat.xor_lt_two_pow (n := 32) (by simpa using hs) (by simpa using hbb1)
    simpa using this
  have h2 : s ^^^ (b2 % 256) < 4294967296 := by
    have := Nat.xor_lt_two_pow (n := 32) (by simpa using hs) (by simpa using hbb2)
    simpa using this
  exact hb (xor_left_cancel (bitStep_iter_inj 8 h1 h2 h))

theorem foldl_byteStep_lt {s : Nat} (l : List Nat) (h : s < 4294967296) :
    l.foldl byteStep s < 4294967296 := by
  induction l generalizing s with
  | nil => simpa using h
  | cons b t ih => exact ih (byteStep_lt b h)

theorem foldl_byteStep_inj {s t : Nat} (l : List Nat) (hs : s < 4294967296)
    (ht : t < 4294967296) (hne : s ≠ t) : l.foldl byteStep s ≠ l.foldl byteStep t := by
  induction l generalizing s t with
  | nil => simpa using hne
  | cons b rest ih =>
    simp only [List.foldl_cons]
    exact ih (byteStep_lt b hs) (byteStep_lt b ht)
      (fun h => hne (byteStep_state_inj b hs ht h))

/-- CRC-32 detects every corruption of a single byte: two byte sequences
that agree everywhere except at one position, where the bytes differ mod
256, have different checksums. -/
theorem crc32_single_byte_ne (pre suf : List Nat) {b1 b2 : Nat}
    (hb : b1 % 256 ≠ b2 % 256) :
    crc32 (pre ++ b1 :: suf) ≠ crc32 (pre ++ b2 :: suf) := by
  unfold crc32
  intro h
  have h0 : (0xFFFFFFFF : Nat) < 4294967296 := by norm_num
  have hpre : pre.foldl byteStep 0xFFFFFFFF < 4294967296 := foldl_byteStep_lt pre h0
  have hcore := xor_right_cancel h
  rw [List.foldl_append, List.foldl_append] at hcore
  simp only [List.foldl_cons] at hcore
  exact foldl_byteStep_inj suf (byteStep_lt _ hpre) (byteStep_lt _ hpre)
    (byteStep_byte_ne hpre hb) hcore

theorem crc32_lt (l : List Nat) : crc32 l < 4294967296 := by
  unfold crc32
  have h1 : l.foldl byteStep 0xFFFFFFFF < 4294967296 :=
    foldl_byteStep_lt l (by norm_num)
  have := Nat.xor_lt_two_pow (n := 32) (x := l.foldl byteStep 0xFFFFFFFF)
    (y := 0xFFFFFFFF) (by simpa using h1) (by norm_num)
  simpa using this

/-! ### Plugins and registry (`plugin/mod.rs`, `plugin/registry.rs`) -/

/-- Plugin descriptor (`PluginMetadata`).  `throughput` is MB/s and
`ratioValue` is the source field `compression_ratio` (compressed size over
original size, in (0, 1]); both f64 in the source, modelled over `ℚ`. -/
structure PluginMetadata where
  name : String
  version : String
  magic_number : Magic
  throughput : ℚ
  ratioValue : ℚ
  description : String
deriving DecidableEq

/-- A compression plugin (`CompressionAlgorithm` trait object).  `comp` and
`decomp` receive the byte input and a `Bool` snapshot of the cancellation
flag they poll. -/
structure Plugin where
  name : String
  meta : PluginMetadata
  comp : List Nat → Bool → Except CrushError (List Nat)
  decomp : List Nat → Bool → Except CrushError (List Nat)
  detect : List Nat → Bool

/-- Registry lookup (`PluginRegistry::get` / `get_plugin_by_magic`): the
registry's `HashMap` is modelled as the list of registered plugins with
pairwise distinct magic numbers. -/
def lookupMagic (plugins : List Plugin) (m : Magic) : Option Plugin :=
  plugins.find? (fun p => p.meta.magic_number = m)

/-- Magic number of the default DEFLATE plugin (`get_default_plugin`). -/
def defaultMagic : Magic := ⟨0x43, 0x52, 0x01, 0x00⟩

/-- `PluginRegistry::register`: validate the descriptor, then insert unless
the magic number is already taken (first-registered plugin wins; the
collision is logged with `eprintln!`, which has no observable effect in the
model). -/
def register (plugins : List Plugin) (p : Plugin) : Except CrushError (List Plugin) :=
  if p.meta.name = "" then
    .error (.Plugin (.InvalidMetadata "Plugin name cannot be empty"))
  else if p.meta.version = "" then
    .error (.Plugin (.InvalidMetadata "Plugin version cannot be empty"))
  else if p.meta.throughput ≤ 0 then
    .error (.Plugin (.InvalidMetadata ("Plugin " ++ p.meta.name ++ " has invalid throughput")))
  else if p.meta.ratioValue ≤ 0 ∨ 1 < p.meta.ratioValue then
    .error (.Plugin (.InvalidMetadata ("Plugin " ++ p.meta.name ++ " has invalid compression ratio")))
  else if (lookupMagic plugins p.meta.magic_number).isSome then
    .ok plugins
  else
    .ok (plugins ++ [p])

/-- The runtime registry state (`PluginRegistry` behind the `RwLock`):
`none` models the pre-first-`init` `Option::None`. -/
structure RegistryState where
  plugins : List Plugin
  initialized : Bool

/-- `init_plugins`: create or reuse the registry, clear it when it was
already initialized, then scan and register every statically known plugin
(the `COMPRESSION_ALGORITHMS` distributed slice, here the parameter
`static`). -/
def init_plugins (static : List Plugin) (st : Option RegistryState) :
    Except CrushError RegistryState :=
  let base : List Plugin :=
    match st with
    | some s => if s.initialized then [] else s.plugins
    | none => []
  (static.foldlM register base).map (fun final => ⟨final, true⟩)

/-- `list_plugins` on a registry value. -/
def list_plugins (plugins : List Plugin) : List PluginMetadata :=
  plugins.map (·.meta)

/-! ### Selector (`plugin/selector.rs`) -/

/-- Scoring weights; both f64 fields modelled over `ℚ`.  `ratioWeight` is
the source field `compression_ratio`. -/
structure ScoringWeights where
  throughput : ℚ
  ratioWeight : ℚ
deriving DecidableEq

/-- `ScoringWeights::new`: rejects negative weights and weights whose sum
deviates from 1.0 by more than 1e-6. -/
def ScoringWeights.new (throughput ratioWeight : ℚ) : Except CrushError ScoringWeights :=
  if throughput < 0 ∨ ratioWeight < 0 then
    .error (.Validation (.InvalidWeights "Weights cannot be negative"))
  else if 1/1000000 < |throughput + ratioWeight - 1| then
    .error (.Validation (.InvalidWeights "Weights must sum to 1.0"))
  else .ok ⟨throughput, ratioWeight⟩

/-- Default weights (70% throughput, 30% ratio). -/
def defaultWeights : ScoringWeights := ⟨7/10, 3/10⟩

/-- Minimum of a list of rationals.  The source folds `f64::min` from
`f64::INFINITY`; for the non-empty lists this is applied to, that equals
the list minimum. -/
def listMin : List ℚ → ℚ
  | [] => 0
  | x :: xs => xs.foldl min x

/-- Maximum of a list of rationals (source folds from `f64::NEG_INFINITY`). -/
def listMax : List ℚ → ℚ
  | [] => 0
  | x :: xs => xs.foldl max x

/-- `calculate_plugin_score`.  `lg` abstracts the f64 natural logarithm
applied to throughputs. -/
def calculate_plugin_score (lg : ℚ → ℚ) (plugin : PluginMetadata)
    (all_plugins : List PluginMetadata) (weights : ScoringWeights) : ℚ :=
  if all_plugins.isEmpty then 0
  else if all_plugins.length = 1 then 1
  else
    let log_throughputs := all_plugins.map (fun p => lg p.throughput)
    let plugin_log_throughput := lg plugin.throughput
    let min_log_throughput := listMin log_throughputs
    let max_log_throughput := listMax log_throughputs
    let ratios := all_plugins.map (·.ratioValue)
    let min_ratio := listMin ratios
    let max_ratio := listMax ratios
    let norm_throughput :=
      if |max_log_throughput - min_log_throughput| < 1/1000000000 then 1
      else (plugin_log_throughput - min_log_throughput) /
        (max_log_throughput - min_log_throughput)
    let norm_ratio :=
      if |max_ratio - min_ratio| < 1/1000000000 then 1
      else (max_ratio - plugin.ratioValue) / (max_ratio - min_ratio)
    weights.throughput * norm_throughput + weights.ratioWeight * norm_ratio

/-- Comparator of `PluginSelector::select` applied as a "replace current
best" test: the source sorts scored plugins descending by score with ties
broken by ascending name and takes the head; for a stable sort that head is
the leftmost entry no later entry strictly precedes, which this fold
computes. -/
def selectBetter (cur best : ℚ × PluginMetadata) : Bool :=
  best.1 < cur.1 ∨ (cur.1 = best.1 ∧ cur.2.name < best.2.name)

/-- `PluginSelector::select`: score every registered plugin and return the
best one. -/
def select (lg : ℚ → ℚ) (plugins : List Plugin) (weights : ScoringWeights) :
    Except CrushError PluginMetadata :=
  let metas := list_plugins plugins
  match metas with
  | [] => .error (.Plugin (.NotFound "No plugins available. Call init_plugins() first."))
  | m :: rest =>
    let score := fun p => calculate_plugin_score lg p metas weights
    let best := rest.foldl
      (fun best p => if selectBetter (score p, p) best then (score p, p) else best)
      (score m, m)
    .ok best.2

/-- `PluginSelector::select_by_name`: exact-match lookup with an error
message listing the currently available plugin names. -/
def select_by_name (plugins : List Plugin) (name : String) :
    Except CrushError PluginMetadata :=
  match (list_plugins plugins).find? (fun p => p.name = name) with
  | some p => .ok p
  | none =>
    .error (.Plugin (.NotFound ("Plugin '" ++ name ++ "' not found. Available plugins: " ++
      String.intercalate ", " ((list_plugins plugins).map (·.name)))))

/-! ### Timeout executor (`plugin/timeout.rs`) -/

/-- Largest representable `std::time::Duration`, in nanoseconds. -/
def durationMax : Nat := 18446744073709551615 * 1000000000 + 999999999

/-- `run_with_timeout_v2` (re-exported as `run_with_timeout`).  Durations
are nanoseconds; `runtime` is the wall-clock time after which the worker
delivers the operation's result into the bounded(1) channel, and the
receive-with-timeout succeeds exactly when that happens within the
effective timeout (0 is replaced by `Duration::MAX`).  The worker always
delivers in this model (a plugin panic, the `Disconnected` branch, is not
representable for total functions). -/
def run_with_timeout_v2 (timeout runtime : Nat)
    (op : Bool → Except CrushError α) : Except CrushError α :=
  let effective := if timeout = 0 then durationMax else timeout
  if runtime ≤ effective then op false
  else .error (.Timeout (.Timeout timeout))

/-- Modelled from the spec: `run_with_timeout_and_cancel` is called by
`compress_with_options` but its definition is absent from the sources
(only its import and call site are present).  Per §4.5 of the spec it is
the executor `run` with a caller-supplied token: a token already cancelled
short-circuits with `Cancelled` before spawning a worker, otherwise the
operation runs under the same deadline rules as `run_with_timeout_v2`.
The token is modelled as `Option Bool` (its `is_cancelled` state). -/
def run_with_timeout_and_cancel (timeout runtime : Nat) (token : Option Bool)
    (op : Bool → Except CrushError α) : Except CrushError α :=
  if token = some true then .error .Cancelled
  else run_with_timeout_v2 timeout runtime op

/-! ### Compression pipeline (`compression.rs`) -/

/-- `CompressionOptions`.  The cancellation token is `Option Bool`: `none`
when no token was supplied, otherwise the `is_cancelled` state the token
has when `compress_with_options` reads it. -/
structure CompressionOptions where
  plugin_name : Option String := none
  weights : ScoringWeights := defaultWeights
  timeout : Nat := 0
  file_metadata : Option FileMetadata := none
  cancel_token : Option Bool := none

/-- `compress`: default DEFLATE path.  `runtime` is the wall-clock model
parameter of the executor (see `run_with_timeout_v2`). -/
def compress (plugins : List Plugin) (runtime : Nat) (input : List Nat) :
    Except CrushError (List Nat) :=
  match lookupMagic plugins defaultMagic with
  | none =>
    .error (.Plugin (.NotFound "Default DEFLATE plugin not found. Call init_plugins() first."))
  | some plugin =>
    match run_with_timeout_v2 0 runtime (fun cancel_flag => plugin.comp input cancel_flag) with
    | .error e => .error e
    | .ok compressed_payload =>
      let crc := crc32 compressed_payload
      let header := (CrushHeader.new defaultMagic input.length).with_crc32
      .ok (header.to_bytes ++ le32 crc ++ compressed_payload)

/-- `compress_with_options`. -/
def compress_with_options (lg : ℚ → ℚ) (plugins : List Plugin) (runtime : Nat)
    (input : List Nat) (options : CompressionOptions) : Except CrushError (List Nat) :=
  -- check if already cancelled before starting
  if options.cancel_token = some true then .error .Cancelled
  else
    match (match options.plugin_name with
           | some name => select_by_name plugins name
           | none => select lg plugins options.weights) with
    | .error e => .error e
    | .ok selected =>
      match lookupMagic plugins selected.magic_number with
      | none =>
        .error (.Plugin (.NotFound ("Plugin '" ++ selected.name ++
          "' metadata found but not in registry")))
      | some plugin =>
        match run_with_timeout_and_cancel options.timeout runtime options.cancel_token
            (fun cancel_flag => plugin.comp input cancel_flag) with
        | .error e => .error e
        | .ok compressed_payload =>
          let metadata_bytes :=
            match options.file_metadata with
            | some m => m.to_bytes
            | none => []
          let payload_with_metadata :=
            (if metadata_bytes.isEmpty then []
             else le16 metadata_bytes.length ++ metadata_bytes) ++ compressed_payload
          let crc := crc32 payload_with_metadata
          let header0 := (CrushHeader.new selected.magic_number input.length).with_crc32
          let header := if metadata_bytes.isEmpty then header0 else header0.with_metadata
          .ok (header.to_bytes ++ le32 crc ++ payload_with_metadata)

/-! ### Decompression and inspection (`decompression.rs`, `inspection.rs`) -/

def tooShortMsg (n : Nat) : String :=
  "Input too short: " ++ toString n ++ " bytes, expected at least 16"

def crcTruncMsg : String := "Truncated: CRC32 flag set but no CRC32 data"

def mdLenTruncMsg : String := "Truncated: metadata flag set but no metadata length"

def mdExceedsMsg : String := "Truncated: metadata length exceeds payload size"

def sizeMismatchMsg (headerSays got : Nat) : String :=
  "Size mismatch: header says " ++ toString headerSays ++ " bytes, got " ++
    toString got ++ " bytes"

/-- Shared metadata-section parsing of `decompress` and `inspect`: starting
at the cursor `ps`, read the 2-byte metadata length and the metadata block
when the flag is set, returning the metadata and the cursor after it. -/
def parseMetadataSection (input : List Nat) (ps : Nat) (hasMd : Bool) :
    Except CrushError (FileMetadata × Nat) :=
  if hasMd then
    if input.length < ps + 2 then .error (.Validation (.InvalidHeader mdLenTruncMsg))
    else
      let metadata_len := leNat ((input.drop ps).take 2)
      if input.length < ps + 2 + metadata_len then
        .error (.Validation (.InvalidHeader mdExceedsMsg))
      else
        match FileMetadata.from_bytes ((input.drop (ps + 2)).take metadata_len) with
        | .error e => .error e
        | .ok md => .ok (md, ps + 2 + metadata_len)
  else .ok ({}, ps)

/-- Result record of `decompress`. -/
structure DecompressionResult where
  data : List Nat
  metadata : FileMetadata
deriving DecidableEq

/-- Error message of the registry miss in `decompress` (the source also
interpolates the hex magic number, not reproduced here). -/
def decompressNotFoundMsg (plugins : List Plugin) : String :=
  "No plugin found for magic number. Available plugins: " ++
    String.intercalate ", " ((list_plugins plugins).map (·.name)) ++
    ". Did you call init_plugins()?"

/-- `decompress`: parse the header, verify the CRC-32 when its flag is set,
parse the metadata block when its flag is set, route to the plugin with the
header's magic number, decompress, and check the declared original size.
The cancellation flag handed to the plugin is a freshly created
`AtomicBool::new(false)` ("not yet connected to timeout system"), hence the
literal `false`. -/
def decompress (plugins : List Plugin) (input : List Nat) :
    Except CrushError DecompressionResult :=
  if input.length < 16 then
    .error (.Validation (.InvalidHeader (tooShortMsg input.length)))
  else
    match CrushHeader.from_bytes (input.take 16) with
    | .error e => .error e
    | .ok header =>
      let crcStep : Except CrushError Nat :=
        if header.has_crc32 then
          if input.length < 20 then .error (.Validation (.InvalidHeader crcTruncMsg))
          else
            let stored_crc := leNat ((input.drop 16).take 4)
            let computed_crc := crc32 (input.drop 20)
            if stored_crc ≠ computed_crc then
              .error (.Validation (.CrcMismatch stored_crc computed_crc))
            else .ok 20
        else .ok 16
      match crcStep with
      | .error e => .error e
      | .ok ps =>
        match parseMetadataSection input ps header.hasMd with
        | .error e => .error e
        | .ok (metadata, ps2) =>
          let compressed_payload := input.drop ps2
          match lookupMagic plugins header.magic with
          | none => .error (.Plugin (.NotFound (decompressNotFoundMsg plugins)))
          | some plugin =>
            match plugin.decomp compressed_payload false with
            | .error e => .error e
            | .ok data =>
              if data.length ≠ header.original_size then
                .error (.Validation (.CorruptedData
                  (sizeMismatchMsg header.original_size data.length)))
              else .ok ⟨data, metadata⟩

/-- Result record of `inspect` (`InspectResult`). -/
structure InspectResult where
  original_size : Nat
  compressed_size : Nat
  plugin_name : String
  crc_valid : Bool
  metadata : FileMetadata
deriving DecidableEq

/-- `inspect`: same parsing as `decompress`, but a CRC mismatch only clears
`crc_valid` instead of aborting, and the plugin is looked up for its name
but never invoked. -/
def inspect (plugins : List Plugin) (input : List Nat) :
    Except CrushError InspectResult :=
  if input.length < 16 then
    .error (.Validation (.InvalidHeader (tooShortMsg input.length)))
  else
    match CrushHeader.from_bytes (input.take 16) with
    | .error e => .error e
    | .ok header =>
      let crcStep : Except CrushError (Bool × Nat) :=
        if header.has_crc32 then
          if input.length < 20 then .error (.Validation (.InvalidHeader crcTruncMsg))
          else
            let stored_crc := leNat ((input.drop 16).take 4)
            let computed_crc := crc32 (input.drop 20)
            .ok (stored_crc = computed_crc, 20)
        else .ok (false, 16)
      match crcStep with
      | .error e => .error e
      | .ok (crc_valid, ps) =>
        match parseMetadataSection input ps header.hasMd with
        | .error e => .error e
        | .ok (metadata, _) =>
          match lookupMagic plugins header.magic with
          | none => .error (.Plugin (.NotFound "No plugin found for magic number"))
          | some plugin =>
            .ok ⟨header.original_size, input.length, plugin.name, crc_valid, metadata⟩

/-! ### Resource tracking (`cancel.rs`, `ResourceTracker`) -/

/-- State of a `ResourceTracker` at scope exit: the registered output path,
the registered temporary paths, and the completion flag. -/
structure ResourceTracker where
  output_path : Option String
  temp_files : List String
  is_complete : Bool

/-- Paths `ResourceTracker::cleanup_all` removes: every temporary file
always, plus the output path when the operation is not complete (the
per-path `exists()` guards and I/O errors only affect the returned
`io::Result`, not which paths are targeted). -/
def cleanup_all (t : ResourceTracker) : List String :=
  t.temp_files ++ (if t.is_complete then [] else t.output_path.toList)

/-- Paths removed by `impl Drop for ResourceTracker`: the drop handler
calls `cleanup_all` only when the completion flag is clear. -/
def dropRemoves (t : ResourceTracker) : List String :=
  if t.is_complete then [] else cleanup_all t

/-! ### Decidable equality for `Except` results (used by concrete checks) -/

instance {ε α : Type} [DecidableEq ε] [DecidableEq α] : DecidableEq (Except ε α)
  | .error e1, .error e2 =>
    match decEq e1 e2 with
    | .isTrue h => .isTrue (congrArg Except.error h)
    | .isFalse h => .isFalse (fun c => h (by cases c; rfl))
  | .error _, .ok _ => .isFalse (fun c => by cases c)
  | .ok _, .error _ => .isFalse (fun c => by cases c)
  | .ok a1, .ok a2 =>
    match decEq a1 a2 with
    | .isTrue h => .isTrue (congrArg Except.ok h)
    | .isFalse h => .isFalse (fun c => h (by cases c; rfl))

/-- A single-bit corruption: byte `i` gets bit `k` flipped. -/
def flipBit (l : List Nat) (i k : Nat) : List Nat := l.set i (l.getD i 0 ^^^ 2 ^ k)

/-! ### Claim C3: ResourceTracker cleanup on scope exit -/

/-- C3 (code_bug evidence): the claim (and the doc comment of
`ResourceTracker`, "Temp files: Always deleted on drop") says every
registered temporary path is removed on scope exit.  The `Drop`
implementation however skips `cleanup_all` entirely once `mark_complete`
was called, so a tracker holding the temporary path "temp.dat" with the
completion flag set removes nothing on drop — while `cleanup_all` itself
would remove the temporary file, matching the documented intent. -/
theorem c3_drop_skips_temp_cleanup_when_complete :
    dropRemoves ⟨none, ["temp.dat"], true⟩ = [] ∧
      cleanup_all ⟨none, ["temp.dat"], true⟩ = ["temp.dat"] := by
  constructor <;> rfl

/-! ### Claim C6: pre-cancelled token short-circuits compress_with_options -/

/-- C6: if the cancellation token supplied in the options is already
cancelled when `compress_with_options` is invoked, the call returns the
`Cancelled` error immediately.  The result is this error for every
registry, every plugin behavior, every worker runtime and every remaining
option, i.e. no plugin is consulted and no worker outcome matters. -/
theorem c6_precancelled_short_circuits (lg : ℚ → ℚ) (plugins : List Plugin)
    (runtime : Nat) (input : List Nat) (options : CompressionOptions)
    (h : options.cancel_token = some true) :
    compress_with_options lg plugins runtime input options = .error .Cancelled := by
  unfold compress_with_options
  rw [if_pos h]

/-- Witness for C6 at a concrete pre-cancelled call. -/
theorem c6_precancelled_short_circuits_witness :
    ({ cancel_token := some true : CompressionOptions }).cancel_token = some true ∧
      compress_with_options id [] 0 [1, 2] { cancel_token := some true } =
        .error .Cancelled :=
  ⟨rfl, c6_precancelled_short_circuits id [] 0 [1, 2] _ rfl⟩

/-! ### Claim C7: a zero deadline never times out -/

/-- C7: with a deadline of zero the executor waits on the channel with
`Duration::MAX`, so for every physically representable worker runtime (at
most `Duration::MAX` nanoseconds) and every operation the executor never
returns `Timeout`: the operation's own result — success or its own error —
is propagated unchanged. -/
theorem c7_zero_deadline_never_times_out {α : Type}
    (runtime : Nat) (op : Bool → Except CrushError α)
    (h : runtime ≤ durationMax) :
    run_with_timeout_v2 0 runtime op = op false := by
  unfold run_with_timeout_v2
  simp [h]

/-- Witness for C7: a ten-second operation under a zero deadline returns
its own result. -/
theorem c7_zero_deadline_never_times_out_witness :
    10000000000 ≤ durationMax ∧
      run_with_timeout_v2 10000000000 0 (fun _ => .ok [1, 2, 3]) =
        (.ok [1, 2, 3] : Except CrushError (List Nat)) :=
  ⟨by decide, c7_zero_deadline_never_times_out 10000000000 (fun _ => .ok [1, 2, 3]) (by decide)⟩

/-! ### Claim C10: FileMetadata TLV roundtrip -/

theorem i64bits_lt (v : Int) : i64bits v < 18446744073709551616 := by
  unfold i64bits
  omega

theorem take8_le64 (n : Nat) : (le64 n).take 8 = le64 n := by simp [le64]

theorem drop8_le64 (n : Nat) : (le64 n).drop 8 = [] := by simp [le64]

theorem take4_le32 (n : Nat) : (le32 n).take 4 = le32 n := by simp [le32]

theorem drop4_le32 (n : Nat) : (le32 n).drop 4 = [] := by simp [le32]

/-- C10: for every `FileMetadata` value within the machine ranges of its
fields (`i64` mtime, `u32` permissions) — any combination of present and
absent fields — decoding the encoding succeeds and returns the value
unchanged, so metadata supplied at compression time survives the container
roundtrip intact. -/
theorem c10_file_metadata_roundtrip (m : FileMetadata)
    (hmt : ∀ v ∈ m.mtime, -9223372036854775808 ≤ v ∧ v < 9223372036854775808)
    (hpm : ∀ p ∈ m.permissions, p < 4294967296) :
    FileMetadata.from_bytes m.to_bytes = .ok m := by
  obtain ⟨mt, pm⟩ := m
  cases mt with
  | none =>
    cases pm with
    | none => rfl
    | some p =>
      have hp : p < 4294967296 := hpm p (by simp)
      simp only [FileMetadata.to_bytes, FileMetadata.from_bytes]
      simp only [List.nil_append, List.length_cons, le32_length]
      simp only [fromBytesAux, take4_le32, drop4_le32, le32_length]
      norm_num [leNat_le32, Nat.mod_eq_of_lt hp, fromBytesAux]
  | some v =>
    have hv := hmt v (by simp)
    cases pm with
    | none =>
      simp only [FileMetadata.to_bytes, FileMetadata.from_bytes]
      simp only [List.append_nil, List.length_cons, le64_length]
      simp only [fromBytesAux, take8_le64, drop8_le64, le64_length]
      norm_num [leNat_le64, Nat.mod_eq_of_lt (i64bits_lt v),
        decodeI64_i64bits v hv.1 hv.2, fromBytesAux]
    | some p =>
      have hp : p < 4294967296 := hpm p (by simp)
      simp only [FileMetadata.to_bytes, FileMetadata.from_bytes]
      simp only [List.cons_append]
      rw [show (1 :: 8 :: (le64 (i64bits v) ++ 2 :: 4 :: le32 p)).length = 16 by
        simp [le64, le32]]
      simp only [fromBytesAux]
      norm_num [le64_length, le32_length, List.length_append, take4_le32,
        leNat_le64, leNat_le32, Nat.mod_eq_of_lt hp, Nat.mod_eq_of_lt (i64bits_lt v),
        decodeI64_i64bits v hv.1 hv.2]

/-- Witness for C10 at a concrete metadata value with both fields present
(a negative mtime exercising the two's-complement path). -/
theorem c10_file_metadata_roundtrip_witness :
    (∀ v ∈ (some (-5) : Option Int), -9223372036854775808 ≤ v ∧ v < 9223372036854775808) ∧
      (∀ p ∈ (some 420 : Option Nat), p < 4294967296) ∧
      FileMetadata.from_bytes (FileMetadata.to_bytes ⟨some (-5), some 420⟩) =
        .ok ⟨some (-5), some 420⟩ :=
  ⟨by decide, by decide,
    c10_file_metadata_roundtrip ⟨some (-5), some 420⟩ (by decide) (by decide)⟩

/-! ### Claim C9: registry identifier uniqueness and first-wins collisions -/

/-- Structural validity of a plugin descriptor, as `register` checks it. -/
def validMeta (m : PluginMetadata) : Prop :=
  m.name ≠ "" ∧ m.version ≠ "" ∧ 0 < m.throughput ∧ 0 < m.ratioValue ∧ m.ratioValue ≤ 1

instance (m : PluginMetadata) : Decidable (validMeta m) := by
  unfold validMeta
  infer_instance

theorem register_of_valid (plugins : List Plugin) (p : Plugin) (hv : validMeta p.meta) :
    register plugins p =
      .ok (if (lookupMagic plugins p.meta.magic_number).isSome
           then plugins else plugins ++ [p]) := by
  obtain ⟨h1, h2, h3, h4, h5⟩ := hv
  unfold register
  rw [if_neg h1, if_neg h2, if_neg (by exact not_le.mpr h3),
    if_neg (by push_neg; exact ⟨h4, h5⟩)]
  split <;> rfl

theorem lookupMagic_append (a b : List Plugin) (m : Magic) :
    lookupMagic (a ++ b) m = (lookupMagic a m).or (lookupMagic b m) := by
  unfold lookupMagic
  exact List.find?_append

/-- Invariant step of `init_plugins`: folding `register` over a list of
structurally valid plugins succeeds, keeps the magic numbers of the
accumulated registry pairwise distinct, and resolves each magic number to
the previously registered plugin if any, else to the first plugin in the
scanned list declaring it. -/
theorem foldlM_register_invariant (l : List Plugin) :
    ∀ acc : List Plugin, (∀ p ∈ l, validMeta p.meta) →
    (acc.map (·.meta.magic_number)).Nodup →
    ∃ r, l.foldlM register acc = .ok r ∧
      (r.map (·.meta.magic_number)).Nodup ∧
      ∀ m, lookupMagic r m =
        (lookupMagic acc m).or (l.find? (fun p => p.meta.magic_number = m)) := by
  induction l with
  | nil =>
    intro acc _ hnd
    exact ⟨acc, rfl, hnd, fun m => by simp⟩
  | cons p l' ih =>
    intro acc hv hnd
    have hvp : validMeta p.meta := hv p (by simp)
    have hvl' : ∀ q ∈ l', validMeta q.meta := fun q hq => hv q (by simp [hq])
    rw [List.foldlM_cons, register_of_valid acc p hvp]
    by_cases hdup : (lookupMagic acc p.meta.magic_number).isSome
    · rw [if_pos hdup]
      obtain ⟨r, hr, hrnd, hrl⟩ := ih acc hvl' hnd
      refine ⟨r, by simpa using hr, hrnd, fun m => ?_⟩
      rw [hrl m]
      obtain ⟨q, hq⟩ := Option.isSome_iff_exists.mp hdup
      by_cases hm : p.meta.magic_number = m
      · subst hm
        rw [hq]
        rfl
      · rw [List.find?_cons_of_neg _ (by simp [hm])]
    · rw [if_neg hdup]
      have hmem : p.meta.magic_number ∉ acc.map (·.meta.magic_number) := by
        intro hin
        obtain ⟨q, hq, hqm⟩ := List.mem_map.mp hin
        have : (lookupMagic acc p.meta.magic_number).isSome := by
          unfold lookupMagic
          rw [List.find?_isSome]
          exact ⟨q, hq, by simp [hqm]⟩
        exact hdup this
      have hnd' : ((acc ++ [p]).map (·.meta.magic_number)).Nodup := by
        rw [List.map_append]
        exact (List.perm_append_singleton _ _).nodup_iff.mpr
          (List.nodup_cons.mpr ⟨hmem, hnd⟩)
      obtain ⟨r, hr, hrnd, hrl⟩ := ih (acc ++ [p]) hvl' hnd'
      refine ⟨r, by simpa using hr, hrnd, fun m => ?_⟩
      rw [hrl m, lookupMagic_append, Option.or_assoc]
      congr 1
      by_cases hm : p.meta.magic_number = m
      · rw [List.find?_cons_of_pos _ (by simp [hm])]
        have : lookupMagic [p] m = some p := by
          simp [lookupMagic, hm]
        rw [this]
        rfl
      · rw [List.find?_cons_of_neg _ (by simp [hm])]
        have : lookupMagic [p] m = none := by
          simp [lookupMagic, hm]
        rw [this]
        rfl

/-- C9: after every successful `init_plugins` call — first initialization
(`st = none`) or re-initialization of an initialized registry — the
resulting registry holds pairwise distinct 4-byte identifiers, every
identifier resolves to the first statically known plugin declaring it
(first-registered wins on collisions), and initialization succeeds even
when the scanned list contains identifier collisions, as long as every
descriptor is structurally valid. -/
theorem c9_init_plugins_unique_first_wins (static : List Plugin)
    (st : Option RegistryState)
    (hv : ∀ p ∈ static, validMeta p.meta)
    (hst : st = none ∨ ∃ s, st = some s ∧ s.initialized = true) :
    ∃ final, init_plugins static st = .ok ⟨final, true⟩ ∧
      (final.map (·.meta.magic_number)).Nodup ∧
      ∀ m, lookupMagic final m = static.find? (fun p => p.meta.magic_number = m) := by
  obtain ⟨r, hr, hrnd, hrl⟩ := foldlM_register_invariant static [] hv (by simp)
  have hres : init_plugins static st =
      (static.foldlM register []).map (fun final => ⟨final, true⟩) := by
    rcases hst with h | ⟨s, hs, hinit⟩
    · subst h
      rfl
    · subst hs
      simp [init_plugins, hinit]
  refine ⟨r, ?_, hrnd, fun m => by simpa [lookupMagic] using hrl m⟩
  rw [hres, hr]
  rfl

/-- Witness for C9: two valid plugins sharing the identifier
CR-1-0x07; initialization succeeds, the identifiers are unique, and the
shared identifier resolves to the first-registered plugin "one". -/
theorem c9_init_plugins_unique_first_wins_witness :
    (∀ p ∈ [(⟨"one", ⟨"one", "1.0.0", ⟨67, 82, 1, 7⟩, 1, 1, "first"⟩,
              fun i _ => .ok i, fun i _ => .ok i, fun _ => true⟩ : Plugin),
            (⟨"two", ⟨"two", "1.0.0", ⟨67, 82, 1, 7⟩, 1, 1, "second"⟩,
              fun i _ => .ok i, fun i _ => .ok i, fun _ => true⟩ : Plugin)],
        validMeta p.meta) ∧
      ∃ final,
        init_plugins
          [(⟨"one", ⟨"one", "1.0.0", ⟨67, 82, 1, 7⟩, 1, 1, "first"⟩,
             fun i _ => .ok i, fun i _ => .ok i, fun _ => true⟩ : Plugin),
           (⟨"two", ⟨"two", "1.0.0", ⟨67, 82, 1, 7⟩, 1, 1, "second"⟩,
             fun i _ => .ok i, fun i _ => .ok i, fun _ => true⟩ : Plugin)]
          none = .ok ⟨final, true⟩ ∧
        (final.map (·.meta.magic_number)).Nodup ∧
        ∀ m, lookupMagic final m =
          List.find? (fun p => p.meta.magic_number = m)
            [(⟨"one", ⟨"one", "1.0.0", ⟨67, 82, 1, 7⟩, 1, 1, "first"⟩,
               fun i _ => .ok i, fun i _ => .ok i, fun _ => true⟩ : Plugin),
             (⟨"two", ⟨"two", "1.0.0", ⟨67, 82, 1, 7⟩, 1, 1, "second"⟩,
               fun i _ => .ok i, fun i _ => .ok i, fun _ => true⟩ : Plugin)] := by
  refine ⟨?_, c9_init_plugins_unique_first_wins _ none ?_ (Or.inl rfl)⟩ <;>
    · intro p hp
      simp only [List.mem_cons, List.not_mem_nil, or_false] at hp
      rcases hp with h | h <;>
        · subst h
          exact ⟨by simp, by simp, zero_lt_one, zero_lt_one, le_refl 1⟩

/-! ### Claim C8: plugin score bounds -/

theorem foldl_min_le (l : List ℚ) (a : ℚ) : l.foldl min a ≤ a := by
  induction l generalizing a with
  | nil => simp
  | cons z zs ih =>
    simp only [List.foldl_cons]
    exact le_trans (ih (min a z)) (min_le_left a z)

theorem foldl_min_le_mem {l : List ℚ} {x : ℚ} (a : ℚ) (h : x ∈ l) :
    l.foldl min a ≤ x := by
  induction l generalizing a with
  | nil => cases h
  | cons z zs ih =>
    simp only [List.foldl_cons]
    rcases List.mem_cons.mp h with h | h
    · subst h
      exact le_trans (foldl_min_le zs (min a x)) (min_le_right a x)
    · exact ih (min a z) h

theorem le_foldl_max (l : List ℚ) (a : ℚ) : a ≤ l.foldl max a := by
  induction l generalizing a with
  | nil => simp
  | cons z zs ih =>
    simp only [List.foldl_cons]
    exact le_trans (le_max_left a z) (ih (max a z))

theorem le_foldl_max_mem {l : List ℚ} {x : ℚ} (a : ℚ) (h : x ∈ l) :
    x ≤ l.foldl max a := by
  induction l generalizing a with
  | nil => cases h
  | cons z zs ih =>
    simp only [List.foldl_cons]
    rcases List.mem_cons.mp h with h | h
    · subst h
      exact le_trans (le_max_right a x) (le_foldl_max zs (max a x))
    · exact ih (max a z) h

theorem listMin_le_of_mem {l : List ℚ} {x : ℚ} (h : x ∈ l) : listMin l ≤ x := by
  cases l with
  | nil => cases h
  | cons y ys =>
    unfold listMin
    rcases List.mem_cons.mp h with h | h
    · subst h
      exact foldl_min_le ys x
    · exact foldl_min_le_mem y h

theorem le_listMax_of_mem {l : List ℚ} {x : ℚ} (h : x ∈ l) : x ≤ listMax l := by
  cases l with
  | nil => cases h
  | cons y ys =>
    unfold listMax
    rcases List.mem_cons.mp h with h | h
    · subst h
      exact le_foldl_max ys x
    · exact le_foldl_max_mem y h

/-- C8 (counterexample): `ScoringWeights::new` accepts weights whose sum
deviates from 1.0 by up to 1e-6, so (1, 1e-6) is a valid weight pair; for
two registered plugins with identical throughput and identical ratio both
normalized dimensions are 1, and the score is 1 + 1e-6 > 1, outside the
claimed interval [0, 1].  (With identical throughputs the logarithm is
irrelevant; it is instantiated with the identity function.) -/
theorem c8_score_above_one_counterexample :
    ScoringWeights.new 1 (1/1000000) = .ok ⟨1, 1/1000000⟩ ∧
      1 < calculate_plugin_score id
        ⟨"a", "1.0.0", ⟨67, 82, 1, 1⟩, 100, 1/2, ""⟩
        [⟨"a", "1.0.0", ⟨67, 82, 1, 1⟩, 100, 1/2, ""⟩,
         ⟨"b", "1.0.0", ⟨67, 82, 1, 2⟩, 100, 1/2, ""⟩]
        ⟨1, 1/1000000⟩ := by
  constructor
  · rw [ScoringWeights.new]
    rw [if_neg (by norm_num)]
    rw [if_neg (by
      rw [abs_of_nonneg (by norm_num)]
      norm_num)]
  · norm_num [calculate_plugin_score, listMin, listMax]

/-- C8 (amended): for every plugin in a non-empty candidate set and every
weight pair accepted by `ScoringWeights::new` (non-negative, summing to
1.0 within 1e-6), the score lies in [0, 1 + 1e-6]; when the weights sum to
exactly 1.0 it lies in the claimed interval [0, 1].  The bound holds for
every log-scaling function `lg`. -/
theorem c8_score_bounds (lg : ℚ → ℚ) (plugin : PluginMetadata)
    (all_plugins : List PluginMetadata) (wt wr : ℚ) (w : ScoringWeights)
    (hw : ScoringWeights.new wt wr = .ok w)
    (hmem : plugin ∈ all_plugins) :
    0 ≤ calculate_plugin_score lg plugin all_plugins w ∧
      calculate_plugin_score lg plugin all_plugins w ≤ 1 + 1/1000000 ∧
      (wt + wr = 1 → calculate_plugin_score lg plugin all_plugins w ≤ 1) := by
  -- extract the validation facts from the accepted constructor call
  rw [ScoringWeights.new] at hw
  by_cases hneg : wt < 0 ∨ wr < 0
  · rw [if_pos hneg] at hw
    cases hw
  rw [if_neg hneg] at hw
  by_cases hsum : 1/1000000 < |wt + wr - 1|
  · rw [if_pos hsum] at hw
    cases hw
  rw [if_neg hsum] at hw
  obtain ⟨rfl⟩ : w = ⟨wt, wr⟩ := by cases hw; rfl
  push_neg at hneg hsum
  obtain ⟨hwt, hwr⟩ := hneg
  have hsum' : wt + wr ≤ 1 + 1/1000000 := by
    have := abs_le.mp hsum
    linarith [this.2]
  unfold calculate_plugin_score
  rw [if_neg (by simp [List.isEmpty_iff]; rintro rfl; cases hmem)]
  by_cases hone : all_plugins.length = 1
  · rw [if_pos hone]
    refine ⟨by norm_num, by linarith, fun _ => le_refl 1⟩
  rw [if_neg hone]
  have hnt : (0 : ℚ) ≤ (if |listMax (all_plugins.map fun p => lg p.throughput) -
        listMin (all_plugins.map fun p => lg p.throughput)| < 1/1000000000 then 1
      else (lg plugin.throughput - listMin (all_plugins.map fun p => lg p.throughput)) /
        (listMax (all_plugins.map fun p => lg p.throughput) -
          listMin (all_plugins.map fun p => lg p.throughput))) ∧
      (if |listMax (all_plugins.map fun p => lg p.throughput) -
        listMin (all_plugins.map fun p => lg p.throughput)| < 1/1000000000 then 1
      else (lg plugin.throughput - listMin (all_plugins.map fun p => lg p.throughput)) /
        (listMax (all_plugins.map fun p => lg p.throughput) -
          listMin (all_plugins.map fun p => lg p.throughput))) ≤ 1 := by
    split
    · exact ⟨zero_le_one, le_refl 1⟩
    · rename_i hgap
      have hin : lg plugin.throughput ∈ all_plugins.map fun p => lg p.throughput :=
        List.mem_map.mpr ⟨plugin, hmem, rfl⟩
      have hmin := listMin_le_of_mem hin
      have hmax := le_listMax_of_mem hin
      have hpos : 0 < listMax (all_plugins.map fun p => lg p.throughput) -
          listMin (all_plugins.map fun p => lg p.throughput) := by
        rcases lt_or_le 0 (listMax (all_plugins.map fun p => lg p.throughput) -
            listMin (all_plugins.map fun p => lg p.throughput)) with h | h
        · exact h
        · exfalso
          apply hgap
          rw [abs_of_nonpos (by linarith)]
          have : listMin (all_plugins.map fun p => lg p.throughput) ≤
              listMax (all_plugins.map fun p => lg p.throughput) := le_trans hmin hmax
          have h0 : listMax (all_plugins.map fun p => lg p.throughput) -
              listMin (all_plugins.map fun p => lg p.throughput) = 0 := le_antisymm h (by linarith)
          rw [h0]
          norm_num
      constructor
      · exact div_nonneg (by linarith) (le_of_lt hpos)
      · rw [div_le_one hpos]
        linarith
  have hnr : (0 : ℚ) ≤ (if |listMax (all_plugins.map (·.ratioValue)) -
        listMin (all_plugins.map (·.ratioValue))| < 1/1000000000 then 1
      else (listMax (all_plugins.map (·.ratioValue)) - plugin.ratioValue) /
        (listMax (all_plugins.map (·.ratioValue)) -
          listMin (all_plugins.map (·.ratioValue)))) ∧
      (if |listMax (all_plugins.map (·.ratioValue)) -
        listMin (all_plugins.map (·.ratioValue))| < 1/1000000000 then 1
      else (listMax (all_plugins.map (·.ratioValue)) - plugin.ratioValue) /
        (listMax (all_plugins.map (·.ratioValue)) -
          listMin (all_plugins.map (·.ratioValue)))) ≤ 1 := by
    split
    · exact ⟨zero_le_one, le_refl 1⟩
    · rename_i hgap
      have hin : plugin.ratioValue ∈ all_plugins.map (·.ratioValue) :=
        List.mem_map.mpr ⟨plugin, hmem, rfl⟩
      have hmin := listMin_le_of_mem hin
      have hmax := le_listMax_of_mem hin
      have hpos : 0 < listMax (all_plugins.map (·.ratioValue)) -
          listMin (all_plugins.map (·.ratioValue)) := by
        rcases lt_or_le 0 (listMax (all_plugins.map (·.ratioValue)) -
            listMin (all_plugins.map (·.ratioValue))) with h | h
        · exact h
        · exfalso
          apply hgap
          rw [abs_of_nonpos (by linarith)]
          have h0 : listMax (all_plugins.map (·.ratioValue)) -
              listMin (all_plugins.map (·.ratioValue)) = 0 :=
            le_antisymm h (by linarith)
          rw [h0]
          norm_num
      constructor
      · exact div_nonneg (by linarith) (le_of_lt hpos)
      · rw [div_le_one hpos]
        linarith
  refine ⟨?_, ?_, ?_⟩
  · have := mul_nonneg hwt hnt.1
    have := mul_nonneg hwr hnr.1
    linarith
  · have h1 := mul_le_mul_of_nonneg_left hnt.2 hwt
    have h2 := mul_le_mul_of_nonneg_left hnr.2 hwr
    linarith
  · intro hexact
    have h1 := mul_le_mul_of_nonneg_left hnt.2 hwt
    have h2 := mul_le_mul_of_nonneg_left hnr.2 hwr
    linarith

/-- Witness for C8 (amended): default-style weights (0.7, 0.3) on a
two-plugin set, applying the bound theorem at plugin "a". -/
theorem c8_score_bounds_witness :
    ScoringWeights.new (7/10) (3/10) = .ok ⟨7/10, 3/10⟩ ∧
      (⟨"a", "1.0.0", ⟨67, 82, 1, 1⟩, 100, 1/2, ""⟩ : PluginMetadata) ∈
        [(⟨"a", "1.0.0", ⟨67, 82, 1, 1⟩, 100, 1/2, ""⟩ : PluginMetadata),
         ⟨"b", "1.0.0", ⟨67, 82, 1, 2⟩, 400, 1/4, ""⟩] ∧
      0 ≤ calculate_plugin_score id ⟨"a", "1.0.0", ⟨67, 82, 1, 1⟩, 100, 1/2, ""⟩
        [⟨"a", "1.0.0", ⟨67, 82, 1, 1⟩, 100, 1/2, ""⟩,
         ⟨"b", "1.0.0", ⟨67, 82, 1, 2⟩, 400, 1/4, ""⟩] ⟨7/10, 3/10⟩ ∧
      calculate_plugin_score id ⟨"a", "1.0.0", ⟨67, 82, 1, 1⟩, 100, 1/2, ""⟩
        [⟨"a", "1.0.0", ⟨67, 82, 1, 1⟩, 100, 1/2, ""⟩,
         ⟨"b", "1.0.0", ⟨67, 82, 1, 2⟩, 400, 1/4, ""⟩] ⟨7/10, 3/10⟩ ≤ 1 := by
  have hnew : ScoringWeights.new (7/10) (3/10) = .ok ⟨7/10, 3/10⟩ := by
    rw [ScoringWeights.new]
    rw [if_neg (by norm_num)]
    rw [if_neg (by
      rw [show (7:ℚ)/10 + 3/10 - 1 = 0 by norm_num]
      norm_num)]
  have hmem : (⟨"a", "1.0.0", ⟨67, 82, 1, 1⟩, 100, 1/2, ""⟩ : PluginMetadata) ∈
      [(⟨"a", "1.0.0", ⟨67, 82, 1, 1⟩, 100, 1/2, ""⟩ : PluginMetadata),
       ⟨"b", "1.0.0", ⟨67, 82, 1, 2⟩, 400, 1/4, ""⟩] := List.mem_cons_self _ _
  have hb := c8_score_bounds id _ _ (7/10) (3/10) _ hnew hmem
  exact ⟨hnew, hmem, hb.1, hb.2.2 (by norm_num)⟩

/-! ### Shape lemmas for container parsing -/

theorem shape_length (h : CrushHeader) (s : Nat) (t : List Nat) :
    (h.to_bytes ++ (le32 s ++ t)).length = 20 + t.length := by
  simp [to_bytes_length, le32_length]
  omega

theorem shape_take16 (h : CrushHeader) (rest : List Nat) :
    (h.to_bytes ++ rest).take 16 = h.to_bytes :=
  List.take_left' (to_bytes_length h)

theorem shape_drop16 (h : CrushHeader) (rest : List Nat) :
    (h.to_bytes ++ rest).drop 16 = rest :=
  List.drop_left' (to_bytes_length h)

theorem shape_stored (h : CrushHeader) (s : Nat) (t : List Nat) :
    ((h.to_bytes ++ (le32 s ++ t)).drop 16).take 4 = le32 s := by
  rw [shape_drop16]
  exact List.take_left' (le32_length s)

theorem shape_drop20 (h : CrushHeader) (s : Nat) (t : List Nat) :
    (h.to_bytes ++ (le32 s ++ t)).drop 20 = t := by
  have h1 : ((h.to_bytes ++ (le32 s ++ t)).drop 16).drop 4 =
      (h.to_bytes ++ (le32 s ++ t)).drop 20 := by
    rw [List.drop_drop]
  rw [← h1, shape_drop16]
  exact List.drop_left' (le32_length s)

/-- Behavior of `decompress` on a container with flags byte 1 (checksum
present, no metadata), valid magic, and a stored checksum `s`: after header
parsing it performs the CRC comparison against the checksummed region `t`
and then routes to the registered plugin. -/
theorem decompress_flags1 (plugins : List Plugin) (h : CrushHeader) (s : Nat)
    (t : List Nat)
    (hm0 : h.magic.b0 = 0x43) (hm1 : h.magic.b1 = 0x52) (hm2 : h.magic.b2 = 0x01)
    (hflags : h.flags = 1) (hs : s < 4294967296) :
    decompress plugins (h.to_bytes ++ (le32 s ++ t)) =
      if s ≠ crc32 t then .error (.Validation (.CrcMismatch s (crc32 t)))
      else
        match lookupMagic plugins h.magic with
        | none => .error (.Plugin (.NotFound (decompressNotFoundMsg plugins)))
        | some P =>
          match P.decomp t false with
          | .error e => .error e
          | .ok data =>
            if data.length ≠ h.original_size % 18446744073709551616 then
              .error (.Validation (.CorruptedData
                (sizeMismatchMsg (h.original_size % 18446744073709551616) data.length)))
            else .ok ⟨data, {}⟩ := by
  unfold decompress
  rw [if_neg (by rw [shape_length]; omega)]
  rw [shape_take16, from_bytes_to_bytes h hm0 hm1 hm2]
  simp only [CrushHeader.has_crc32, CrushHeader.hasMd, hflags]
  norm_num
  rw [if_neg (by simp only [List.length_append, to_bytes_length, le32_length]; omega)]
  rw [shape_stored, leNat_le32, Nat.mod_eq_of_lt hs]
  rw [show (h.to_bytes ++ (le32 s ++ t)).drop 20 = t from shape_drop20 h s t]
  by_cases hcrc : s = crc32 t
  · simp only [if_pos hcrc]
    simp only [parseMetadataSection, Bool.false_eq_true, if_false]
    rw [shape_drop20]
  · simp only [if_neg hcrc]

/-- C1: pipeline roundtrip.  For every byte sequence `input` whose length
fits the `u64` size field, if the registry initialized by `init_plugins`
resolves the default DEFLATE magic number to a plugin whose decompression
inverts its compression (the algorithm internals live in the external
`flate2` crate, so that inverse property is a hypothesis on the plugin),
and compression of `input` succeeds, then
`decompress (compress input)` succeeds and returns exactly `input` with
default (empty) metadata. -/
theorem c1_roundtrip (plugins : List Plugin) (runtime : Nat) (input : List Nat)
    (P : Plugin) (payload : List Nat)
    (hlook : lookupMagic plugins defaultMagic = some P)
    (hrt : runtime ≤ durationMax)
    (hcomp : P.comp input false = .ok payload)
    (hdecomp : P.decomp payload false = .ok input)
    (hlen : input.length < 18446744073709551616) :
    ∃ compressed, compress plugins runtime input = .ok compressed ∧
      decompress plugins compressed = .ok ⟨input, {}⟩ := by
  have hcompress : compress plugins runtime input =
      .ok (((CrushHeader.new defaultMagic input.length).with_crc32).to_bytes ++
        le32 (crc32 payload) ++ payload) := by
    unfold compress
    rw [hlook]
    unfold run_with_timeout_v2
    rw [if_pos (by simp [hrt])]
    simp only []
    rw [hcomp]
    rw [if_pos hrt]
  refine ⟨_, hcompress, ?_⟩
  rw [List.append_assoc]
  have hd := decompress_flags1 plugins ((CrushHeader.new defaultMagic input.length).with_crc32)
    (crc32 payload) payload rfl rfl rfl
    (by simp [CrushHeader.new, CrushHeader.with_crc32]) (crc32_lt payload)
  rw [hd]
  rw [if_neg (by simp)]
  rw [show ((CrushHeader.new defaultMagic input.length).with_crc32).magic =
    defaultMagic from rfl, hlook]
  simp only []
  rw [hdecomp]
  simp only []
  rw [if_neg (by
    show ¬ input.length ≠ _ % _
    rw [show ((CrushHeader.new defaultMagic input.length).with_crc32).original_size =
      input.length from rfl]
    rw [Nat.mod_eq_of_lt hlen]
    exact fun c => c rfl)]

/-- Witness for C1: the registry holding an identity plugin registered
under the default magic number roundtrips the bytes [1, 2, 3]. -/
theorem c1_roundtrip_witness :
    lookupMagic [(⟨"identity", ⟨"identity", "1.0.0", defaultMagic, 1, 1, "id"⟩,
        fun i _ => .ok i, fun i _ => .ok i, fun _ => true⟩ : Plugin)] defaultMagic =
      some ⟨"identity", ⟨"identity", "1.0.0", defaultMagic, 1, 1, "id"⟩,
        fun i _ => .ok i, fun i _ => .ok i, fun _ => true⟩ ∧
    ∃ compressed,
      compress [(⟨"identity", ⟨"identity", "1.0.0", defaultMagic, 1, 1, "id"⟩,
          fun i _ => .ok i, fun i _ => .ok i, fun _ => true⟩ : Plugin)] 0 [1, 2, 3] =
        .ok compressed ∧
      decompress [(⟨"identity", ⟨"identity", "1.0.0", defaultMagic, 1, 1, "id"⟩,
          fun i _ => .ok i, fun i _ => .ok i, fun _ => true⟩ : Plugin)] compressed =
        .ok ⟨[1, 2, 3], {}⟩ :=
  ⟨rfl, c1_roundtrip _ 0 [1, 2, 3] _ [1, 2, 3] rfl (by decide) rfl rfl (by decide)⟩

/-! ### Claim C2: single-bit corruption detection -/

theorem flip_mod_ne (b k : Nat) (hk : k < 8) : (b ^^^ 2 ^ k) % 256 ≠ b % 256 := by
  intro heq
  have := congrArg (Nat.testBit · k) heq
  simp only [show (256 : Nat) = 2 ^ 8 from rfl, Nat.testBit_mod_two_pow,
    Nat.testBit_xor, Nat.testBit_two_pow_self] at this
  simp [hk] at this

theorem getD_append_right' (a t : List Nat) (i : Nat) (h : a.length ≤ i) :
    (a ++ t).getD i 0 = t.getD (i - a.length) 0 := by
  simp [List.getD_eq_getElem?_getD, List.getElem?_append_right h]

/-- A single-bit flip inside the checksummed region rewrites the container
into the same header and stored checksum with one tail byte xored. -/
theorem flipBit_shape (h : CrushHeader) (s : Nat) (t : List Nat) (i k : Nat)
    (hi : 20 ≤ i) :
    flipBit (h.to_bytes ++ (le32 s ++ t)) i k =
      h.to_bytes ++ (le32 s ++ t.set (i - 20) (t.getD (i - 20) 0 ^^^ 2 ^ k)) := by
  unfold flipBit
  rw [← List.append_assoc]
  have hlen : (h.to_bytes ++ le32 s).length = 20 := by
    simp [to_bytes_length, le32_length]
  rw [List.set_append_right _ _ (by omega), getD_append_right' _ _ _ (by omega), hlen]
  rw [List.append_assoc]

/-- CRC-32 distinguishes a tail from the same tail with one bit flipped. -/
theorem crc32_set_ne (t : List Nat) (j k : Nat) (hj : j < t.length) (hk : k < 8) :
    crc32 (t.set j (t.getD j 0 ^^^ 2 ^ k)) ≠ crc32 t := by
  have hb : t.getD j 0 = t[j] := by
    simp [List.getD_eq_getElem?_getD, List.getElem?_eq_getElem hj]
  rw [List.set_eq_take_cons_drop _ hj, hb]
  conv_rhs => rw [← List.take_append_drop j t, List.drop_eq_getElem_cons hj]
  exact crc32_single_byte_ne _ _ (flip_mod_ne (t[j]) k hk)

/-- `decompress` on a container whose checksum flag is set and whose stored
checksum disagrees with the CRC-32 of the checksummed region fails with
`CrcMismatch`, before any metadata parsing or plugin involvement. -/
theorem decompress_crc_mismatch (plugins : List Plugin) (h : CrushHeader)
    (s : Nat) (t : List Nat)
    (hm0 : h.magic.b0 = 0x43) (hm1 : h.magic.b1 = 0x52) (hm2 : h.magic.b2 = 0x01)
    (hcrcflag : h.flags &&& 1 ≠ 0) (hs : s < 4294967296) (hne : s ≠ crc32 t) :
    decompress plugins (h.to_bytes ++ (le32 s ++ t)) =
      .error (.Validation (.CrcMismatch s (crc32 t))) := by
  unfold decompress
  rw [if_neg (by rw [shape_length]; omega)]
  rw [shape_take16, from_bytes_to_bytes h hm0 hm1 hm2]
  have hb : ∀ n, CrushHeader.has_crc32 ⟨h.magic, n, h.flags, h.reserved⟩ = true := by
    intro n
    have hc := hcrcflag
    simp only [CrushHeader.has_crc32, Nat.and_one_is_mod] at hc ⊢
    simp only [ne_eq, decide_eq_true_eq]
    omega
  simp only []
  rw [hb]
  rw [if_pos rfl]
  rw [if_neg (by rw [shape_length]; omega)]
  rw [shape_stored, leNat_le32, Nat.mod_eq_of_lt hs]
  rw [show (h.to_bytes ++ (le32 s ++ t)).drop 20 = t from shape_drop20 h s t]
  rw [if_pos hne]

/-- `inspect` on a container with flags byte 1 (checksum, no metadata)
reports the parsed size, the total length, the plugin's name, and whether
the stored checksum matches the checksummed region — without invoking the
plugin. -/
theorem inspect_flags1 (plugins : List Plugin) (h : CrushHeader) (s : Nat)
    (t : List Nat)
    (hm0 : h.magic.b0 = 0x43) (hm1 : h.magic.b1 = 0x52) (hm2 : h.magic.b2 = 0x01)
    (hflags : h.flags = 1) (hs : s < 4294967296) :
    inspect plugins (h.to_bytes ++ (le32 s ++ t)) =
      match lookupMagic plugins h.magic with
      | none => .error (.Plugin (.NotFound "No plugin found for magic number"))
      | some P =>
        .ok ⟨h.original_size % 18446744073709551616, 20 + t.length, P.name,
          decide (s = crc32 t), {}⟩ := by
  unfold inspect
  rw [if_neg (by rw [shape_length]; omega)]
  rw [shape_take16, from_bytes_to_bytes h hm0 hm1 hm2]
  simp only [CrushHeader.has_crc32, CrushHeader.hasMd, hflags]
  norm_num
  rw [if_neg (by simp only [List.length_append, to_bytes_length, le32_length]; omega)]
  rw [shape_stored, leNat_le32, Nat.mod_eq_of_lt hs]
  rw [show (h.to_bytes ++ (le32 s ++ t)).drop 20 = t from shape_drop20 h s t]
  simp only [parseMetadataSection, Bool.false_eq_true, if_false]
  rw [show h.to_bytes.length + ((le32 s).length + t.length) = 20 + t.length from by
    simp [to_bytes_length, le32_length]; omega]

/-- Identity test plugin registered under the default DEFLATE magic
number (used by concrete witnesses). -/
def idPlugin : Plugin :=
  { name := "identity",
    meta := { name := "identity", version := "1.0.0", magic_number := defaultMagic,
              throughput := 1, ratioValue := 1, description := "identity codec" },
    comp := fun input _ => .ok input,
    decomp := fun input _ => .ok input,
    detect := fun _ => true }

/-- Options naming the identity plugin and attaching an mtime-only
metadata record (used by concrete witnesses). -/
def mdOptions : CompressionOptions :=
  { plugin_name := some "identity", file_metadata := some { mtime := some 0 } }

/-- C2 (counterexample): a successfully compressed output carrying
metadata (mtime record, 32 bytes total).  Flipping bit 2 of byte 20 — the
low byte of the metadata length, inside the checksummed region — turns the
metadata length 10 into 14, which exceeds the remaining bytes, so `inspect`
on the corrupted bytes does not succeed: it fails with the
metadata-truncation error instead of reporting `crc_valid = false` with the
size and plugin information, contradicting the claim. -/
theorem c2_metadata_flip_counterexample :
    compress_with_options id [idPlugin] 0 [] mdOptions =
      .ok [67, 82, 1, 0, 0, 0, 0, 0, 0, 0, 0, 0, 3, 0, 0, 0,
           40, 231, 248, 197, 10, 0, 1, 8, 0, 0, 0, 0, 0, 0, 0, 0] ∧
    inspect [idPlugin]
        (flipBit [67, 82, 1, 0, 0, 0, 0, 0, 0, 0, 0, 0, 3, 0, 0, 0,
                  40, 231, 248, 197, 10, 0, 1, 8, 0, 0, 0, 0, 0, 0, 0, 0] 20 2) =
      .error (.Validation (.InvalidHeader mdExceedsMsg)) := by
  constructor <;> decide

/-- C2 (amended): for every container whose checksum flag is set and whose
stored checksum is the CRC-32 of its checksummed region — the shape of
every output of `compress` and `compress_with_options` — flipping any
single bit of the checksummed region makes `decompress` fail with
`CrcMismatch` (whose expected field is the stored checksum and whose
actual field is the corrupted region's CRC-32, which provably differs).
When the output carries no metadata (flags byte 1, as `compress` emits),
`inspect` on the same corrupted bytes still succeeds and reports
`crc_valid = false` together with the original size, the compressed size
and the registered plugin's name; for outputs carrying metadata `inspect`
may instead fail when the flip corrupts metadata framing (see the
counterexample). -/
theorem c2_single_bit_flip (plugins : List Plugin) (h : CrushHeader)
    (t : List Nat) (i k : Nat)
    (hm0 : h.magic.b0 = 0x43) (hm1 : h.magic.b1 = 0x52) (hm2 : h.magic.b2 = 0x01)
    (hcrcflag : h.flags &&& 1 ≠ 0)
    (hi : 20 ≤ i) (hi2 : i < 20 + t.length) (hk : k < 8) :
    crc32 t ≠ crc32 (t.set (i - 20) (t.getD (i - 20) 0 ^^^ 2 ^ k)) ∧
    decompress plugins (flipBit (h.to_bytes ++ (le32 (crc32 t) ++ t)) i k) =
      .error (.Validation (.CrcMismatch (crc32 t)
        (crc32 (t.set (i - 20) (t.getD (i - 20) 0 ^^^ 2 ^ k))))) ∧
    (h.flags = 1 → ∀ P, lookupMagic plugins h.magic = some P →
      inspect plugins (flipBit (h.to_bytes ++ (le32 (crc32 t) ++ t)) i k) =
        .ok ⟨h.original_size % 18446744073709551616, 20 + t.length,
          P.name, false, {}⟩) := by
  have hj : i - 20 < t.length := by omega
  have hshape := flipBit_shape h (crc32 t) t i k hi
  have hne := (crc32_set_ne t (i - 20) k hj hk).symm
  refine ⟨hne, ?_, ?_⟩
  · rw [hshape]
    exact decompress_crc_mismatch plugins h (crc32 t) _ hm0 hm1 hm2 hcrcflag
      (crc32_lt t) hne
  · intro hflags P hlook
    rw [hshape]
    rw [inspect_flags1 plugins h (crc32 t) _ hm0 hm1 hm2 hflags (crc32_lt t)]
    rw [hlook]
    simp only [List.length_set]
    rw [decide_eq_false hne]

/-- Witness for C2 (amended) on the concrete output of `compress` for the
input [7] through the identity plugin: flipping bit 0 of byte 20 (the
single payload byte) makes `decompress` fail with a `CrcMismatch` and
leaves `inspect` reporting `crc_valid = false` with intact size and plugin
information. -/
theorem c2_single_bit_flip_witness :
    compress [idPlugin] 0 [7] =
      .ok (((CrushHeader.new defaultMagic 1).with_crc32).to_bytes ++
        (le32 (crc32 [7]) ++ [7])) ∧
    crc32 [7] ≠ crc32 ([7].set 0 (([7].getD 0 0) ^^^ 2 ^ 0)) ∧
    decompress [idPlugin]
        (flipBit (((CrushHeader.new defaultMagic 1).with_crc32).to_bytes ++
          (le32 (crc32 [7]) ++ [7])) 20 0) =
      .error (.Validation (.CrcMismatch (crc32 [7])
        (crc32 ([7].set 0 (([7].getD 0 0) ^^^ 2 ^ 0))))) ∧
    inspect [idPlugin]
        (flipBit (((CrushHeader.new defaultMagic 1).with_crc32).to_bytes ++
          (le32 (crc32 [7]) ++ [7])) 20 0) =
      .ok ⟨1 % 18446744073709551616, 20 + 1, "identity", false, {}⟩ := by
  have hmain := c2_single_bit_flip [idPlugin] ((CrushHeader.new defaultMagic 1).with_crc32)
    [7] 20 0 rfl rfl rfl (by decide) (by decide) (by decide) (by decide)
  exact ⟨by decide, hmain.1, hmain.2.1, hmain.2.2 (by decide) idPlugin rfl⟩

/-! ### Claim C4: how decompress invokes the plugin -/

/-- Modelled from the spec: decompression as §4.6/§4.5 describe it — the
plugin matching the container identifier is invoked through the Executor
with no timeout enforced by default (so the caller waits for the
operation's own result), and the pipeline's cancellation channel is the
flag the plugin polls.  `cancelToken` is that channel's state; it is
missing from the source `decompress`, which creates a fresh
`AtomicBool::new(false)` instead.  Identical to `decompress` except that
the plugin receives `cancelToken`. -/
def decompressSpec (plugins : List Plugin) (cancelToken : Bool) (input : List Nat) :
    Except CrushError DecompressionResult :=
  if input.length < 16 then
    .error (.Validation (.InvalidHeader (tooShortMsg input.length)))
  else
    match CrushHeader.from_bytes (input.take 16) with
    | .error e => .error e
    | .ok header =>
      let crcStep : Except CrushError Nat :=
        if header.has_crc32 then
          if input.length < 20 then .error (.Validation (.InvalidHeader crcTruncMsg))
          else
            let stored_crc := leNat ((input.drop 16).take 4)
            let computed_crc := crc32 (input.drop 20)
            if stored_crc ≠ computed_crc then
              .error (.Validation (.CrcMismatch stored_crc computed_crc))
            else .ok 20
        else .ok 16
      match crcStep with
      | .error e => .error e
      | .ok ps =>
        match parseMetadataSection input ps header.hasMd with
        | .error e => .error e
        | .ok (metadata, ps2) =>
          let compressed_payload := input.drop ps2
          match lookupMagic plugins header.magic with
          | none => .error (.Plugin (.NotFound (decompressNotFoundMsg plugins)))
          | some plugin =>
            match plugin.decomp compressed_payload cancelToken with
            | .error e => .error e
            | .ok data =>
              if data.length ≠ header.original_size then
                .error (.Validation (.CorruptedData
                  (sizeMismatchMsg header.original_size data.length)))
              else .ok ⟨data, metadata⟩

/-- A cancellation-respecting plugin under the default magic number: its
operations return `Cancelled` as soon as the polled flag is set (used to
observe which flag `decompress` hands to the plugin). -/
def cancelAwarePlugin : Plugin :=
  { name := "cancelaware",
    meta := { name := "cancelaware", version := "1.0.0", magic_number := defaultMagic,
              throughput := 1, ratioValue := 1, description := "cancel-aware codec" },
    comp := fun input c => if c then .error (.Plugin .Cancelled) else .ok input,
    decomp := fun input c => if c then .error (.Plugin .Cancelled) else .ok input,
    detect := fun _ => true }

theorem from_bytes_not_cancel (l : List Nat) :
    CrushHeader.from_bytes l ≠ .error (.Plugin .Cancelled) := by
  unfold CrushHeader.from_bytes
  split
  · simp only []
    split_ifs <;> simp
  · simp

theorem fromBytesAux_not_cancel :
    ∀ (fuel : Nat) (l : List Nat) (acc : FileMetadata),
      fromBytesAux fuel l acc ≠ .error (.Plugin .Cancelled) := by
  intro fuel
  induction fuel with
  | zero =>
    intro l acc
    unfold fromBytesAux
    split <;> simp_all
  | succ f ih =>
    intro l acc
    unfold fromBytesAux
    split <;>
      first
        | (simp; done)
        | (simp_all; done)
        | (rename_i fuel' t len rest heq
           have hf : fuel' = f := by omega
           subst hf
           split_ifs <;> first | (simp; done) | apply ih)

theorem parseMetadataSection_not_cancel (input : List Nat) (ps : Nat) (hasMd : Bool) :
    parseMetadataSection input ps hasMd ≠ .error (.Plugin .Cancelled) := by
  unfold parseMetadataSection
  by_cases h1 : hasMd = true
  · rw [if_pos h1]
    by_cases h2 : input.length < ps + 2
    · rw [if_pos h2]
      simp
    · rw [if_neg h2]
      simp only []
      by_cases h3 : input.length < ps + 2 + leNat ((input.drop ps).take 2)
      · rw [if_pos h3]
        simp
      · rw [if_neg h3]
        split
        · rename_i e heq
          intro hc
          injection hc with hc2
          rw [hc2] at heq
          exact fromBytesAux_not_cancel _ _ _ heq
        · simp
  · rw [if_neg h1]
    simp

/-- C4 (amended): `decompress` does not route the plugin call through the
Executor's cancellation machinery — it invokes the matching plugin
directly with a freshly created, never-set cancellation flag and no
timeout.  Consequently it agrees with the spec-modelled pipeline whose
cancellation channel is permanently clear, and whenever no registered
plugin reports `Cancelled` under a clear flag, no `decompress` call can
ever return `Cancelled` — an ambient cancellation channel has no effect on
it. -/
theorem c4_decompress_fresh_flag (plugins : List Plugin) (input : List Nat)
    (hP : ∀ P ∈ plugins, ∀ x, P.decomp x false ≠ .error (.Plugin .Cancelled)) :
    decompress plugins input = decompressSpec plugins false input ∧
    decompress plugins input ≠ .error (.Plugin .Cancelled) := by
  refine ⟨rfl, ?_⟩
  unfold decompress
  by_cases h1 : input.length < 16
  · rw [if_pos h1]
    simp
  · rw [if_neg h1]
    split
    · rename_i e heq
      intro hc
      injection hc with hc2
      rw [hc2] at heq
      exact from_bytes_not_cancel _ heq
    · rename_i header heq
      simp only []
      split
      · rename_i e heq2
        intro hc
        injection hc with hc2
        rw [hc2] at heq2
        split_ifs at heq2 <;> simp at heq2
      · rename_i ps heq2
        split
        · rename_i e heq3
          intro hc
          injection hc with hc2
          rw [hc2] at heq3
          exact parseMetadataSection_not_cancel _ _ _ heq3
        · rename_i metadata ps2 heq3
          split
          · simp
          · rename_i plugin hlk
            split
            · rename_i e heq4
              intro hc
              injection hc with hc2
              rw [hc2] at heq4
              exact hP plugin (List.mem_of_find?_eq_some hlk) _ heq4
            · rename_i data heq4
              split_ifs <;> simp

/-- C4 (counterexample): a valid container produced by `compress` for the
byte [5] through a cancellation-respecting plugin.  With the pipeline's
cancellation channel set, the spec-modelled decompression is cancelled —
but the source `decompress` succeeds on the same input, because it hands
the plugin a fresh `AtomicBool::new(false)` instead of the Executor's
channel: the cancellation channel is not usable to cancel the plugin's
decompression, contradicting the claim. -/
theorem c4_cancellation_channel_unusable_counterexample :
    compress [cancelAwarePlugin] 0 [5] =
      .ok (((CrushHeader.new defaultMagic 1).with_crc32).to_bytes ++
        le32 (crc32 [5]) ++ [5]) ∧
    decompressSpec [cancelAwarePlugin] true
        (((CrushHeader.new defaultMagic 1).with_crc32).to_bytes ++
          le32 (crc32 [5]) ++ [5]) = .error (.Plugin .Cancelled) ∧
    decompress [cancelAwarePlugin]
        (((CrushHeader.new defaultMagic 1).with_crc32).to_bytes ++
          le32 (crc32 [5]) ++ [5]) = .ok ⟨[5], {}⟩ := by
  refine ⟨by decide, by decide, by decide⟩

/-- Witness for C4 (amended) on the identity-plugin registry and a short
arbitrary input. -/
theorem c4_decompress_fresh_flag_witness :
    (∀ P ∈ [idPlugin], ∀ x, P.decomp x false ≠ .error (.Plugin .Cancelled)) ∧
    (decompress [idPlugin] [1, 2, 3] = decompressSpec [idPlugin] false [1, 2, 3] ∧
      decompress [idPlugin] [1, 2, 3] ≠ .error (.Plugin .Cancelled)) := by
  have hp : ∀ P ∈ [idPlugin], ∀ x, P.decomp x false ≠ .error (.Plugin .Cancelled) := by
    intro P hm x
    rw [List.mem_singleton] at hm
    subst hm
    simp [idPlugin]
  exact ⟨hp, c4_decompress_fresh_flag [idPlugin] [1, 2, 3] hp⟩

/-! ### Claim C5: structured rejection of truncated input -/

theorem le16_length (n : Nat) : (le16 n).length = 2 := by simp [le16]

theorem decompress_too_short (plugins : List Plugin) (input : List Nat)
    (h : input.length < 16) :
    decompress plugins input =
      .error (.Validation (.InvalidHeader (tooShortMsg input.length))) := by
  unfold decompress
  rw [if_pos h]

theorem inspect_too_short (plugins : List Plugin) (input : List Nat)
    (h : input.length < 16) :
    inspect plugins input =
      .error (.Validation (.InvalidHeader (tooShortMsg input.length))) := by
  unfold inspect
  rw [if_pos h]

theorem decompress_crc_trunc (plugins : List Plugin) (h : CrushHeader)
    (rest : List Nat)
    (hm0 : h.magic.b0 = 0x43) (hm1 : h.magic.b1 = 0x52) (hm2 : h.magic.b2 = 0x01)
    (hcrcflag : h.flags &&& 1 ≠ 0) (hr : rest.length < 4) :
    decompress plugins (h.to_bytes ++ rest) =
      .error (.Validation (.InvalidHeader crcTruncMsg)) := by
  unfold decompress
  rw [if_neg (by simp [to_bytes_length])]
  rw [shape_take16, from_bytes_to_bytes h hm0 hm1 hm2]
  have hb : ∀ n, CrushHeader.has_crc32 ⟨h.magic, n, h.flags, h.reserved⟩ = true := by
    intro n
    have hc := hcrcflag
    simp only [CrushHeader.has_crc32, Nat.and_one_is_mod] at hc ⊢
    simp only [ne_eq, decide_eq_true_eq]
    omega
  simp only []
  rw [hb]
  rw [if_pos rfl]
  rw [if_pos (by simp only [List.length_append, to_bytes_length]; omega)]

theorem inspect_crc_trunc (plugins : List Plugin) (h : CrushHeader)
    (rest : List Nat)
    (hm0 : h.magic.b0 = 0x43) (hm1 : h.magic.b1 = 0x52) (hm2 : h.magic.b2 = 0x01)
    (hcrcflag : h.flags &&& 1 ≠ 0) (hr : rest.length < 4) :
    inspect plugins (h.to_bytes ++ rest) =
      .error (.Validation (.InvalidHeader crcTruncMsg)) := by
  unfold inspect
  rw [if_neg (by simp [to_bytes_length])]
  rw [shape_take16, from_bytes_to_bytes h hm0 hm1 hm2]
  have hb : ∀ n, CrushHeader.has_crc32 ⟨h.magic, n, h.flags, h.reserved⟩ = true := by
    intro n
    have hc := hcrcflag
    simp only [CrushHeader.has_crc32, Nat.and_one_is_mod] at hc ⊢
    simp only [ne_eq, decide_eq_true_eq]
    omega
  simp only []
  rw [hb]
  rw [if_pos rfl]
  rw [if_pos (by simp only [List.length_append, to_bytes_length]; omega)]

theorem decompress_md_len_trunc (plugins : List Plugin) (h : CrushHeader)
    (t : List Nat)
    (hm0 : h.magic.b0 = 0x43) (hm1 : h.magic.b1 = 0x52) (hm2 : h.magic.b2 = 0x01)
    (hflags : h.flags = 3) (ht : t.length < 2) :
    decompress plugins (h.to_bytes ++ (le32 (crc32 t) ++ t)) =
      .error (.Validation (.InvalidHeader mdLenTruncMsg)) := by
  unfold decompress
  rw [if_neg (by rw [shape_length]; omega)]
  rw [shape_take16, from_bytes_to_bytes h hm0 hm1 hm2]
  simp only [CrushHeader.has_crc32, CrushHeader.hasMd, hflags,
    show (3 : Nat) &&& 1 = 1 from rfl, show (3 : Nat) &&& 2 = 2 from rfl]
  norm_num
  rw [if_neg (by simp only [List.length_append, to_bytes_length, le32_length]; omega)]
  rw [shape_stored, leNat_le32, Nat.mod_eq_of_lt (crc32_lt t)]
  rw [show (h.to_bytes ++ (le32 (crc32 t) ++ t)).drop 20 = t from shape_drop20 h _ t]
  rw [if_pos rfl]
  simp only [parseMetadataSection]
  norm_num
  rw [if_pos (by simp only [to_bytes_length, le32_length]; omega)]

theorem inspect_md_len_trunc (plugins : List Plugin) (h : CrushHeader)
    (s : Nat) (t : List Nat)
    (hm0 : h.magic.b0 = 0x43) (hm1 : h.magic.b1 = 0x52) (hm2 : h.magic.b2 = 0x01)
    (hflags : h.flags = 3) (ht : t.length < 2) :
    inspect plugins (h.to_bytes ++ (le32 s ++ t)) =
      .error (.Validation (.InvalidHeader mdLenTruncMsg)) := by
  unfold inspect
  rw [if_neg (by rw [shape_length]; omega)]
  rw [shape_take16, from_bytes_to_bytes h hm0 hm1 hm2]
  simp only [CrushHeader.has_crc32, CrushHeader.hasMd, hflags,
    show (3 : Nat) &&& 1 = 1 from rfl, show (3 : Nat) &&& 2 = 2 from rfl]
  norm_num
  rw [if_neg (by simp only [List.length_append, to_bytes_length, le32_length]; omega)]
  simp only [parseMetadataSection]
  norm_num
  rw [if_pos (by simp only [to_bytes_length, le32_length]; omega)]

theorem decompress_md_exceeds (plugins : List Plugin) (h : CrushHeader)
    (n : Nat) (r : List Nat)
    (hm0 : h.magic.b0 = 0x43) (hm1 : h.magic.b1 = 0x52) (hm2 : h.magic.b2 = 0x01)
    (hflags : h.flags = 3) (hn : n < 65536) (hr : r.length < n) :
    decompress plugins (h.to_bytes ++ (le32 (crc32 (le16 n ++ r)) ++ (le16 n ++ r))) =
      .error (.Validation (.InvalidHeader mdExceedsMsg)) := by
  unfold decompress
  rw [if_neg (by rw [shape_length]; omega)]
  rw [shape_take16, from_bytes_to_bytes h hm0 hm1 hm2]
  simp only [CrushHeader.has_crc32, CrushHeader.hasMd, hflags,
    show (3 : Nat) &&& 1 = 1 from rfl, show (3 : Nat) &&& 2 = 2 from rfl]
  norm_num
  rw [if_neg (by simp only [List.length_append, to_bytes_length, le32_length]; omega)]
  rw [shape_stored, leNat_le32, Nat.mod_eq_of_lt (crc32_lt _)]
  rw [show (h.to_bytes ++ (le32 (crc32 (le16 n ++ r)) ++ (le16 n ++ r))).drop 20 =
    le16 n ++ r from shape_drop20 h _ _]
  rw [if_pos rfl]
  simp only [parseMetadataSection]
  norm_num
  rw [if_neg (by simp only [to_bytes_length, le32_length, le16_length]; omega)]
  rw [show ((h.to_bytes ++ (le32 (crc32 (le16 n ++ r)) ++ (le16 n ++ r))).drop 20).take 2 =
    le16 n from by
      rw [shape_drop20]
      exact List.take_left' (le16_length n)]
  rw [leNat_le16, Nat.mod_eq_of_lt hn]
  rw [if_pos (by simp only [to_bytes_length, le32_length, le16_length]; omega)]

theorem inspect_md_exceeds (plugins : List Plugin) (h : CrushHeader)
    (s n : Nat) (r : List Nat)
    (hm0 : h.magic.b0 = 0x43) (hm1 : h.magic.b1 = 0x52) (hm2 : h.magic.b2 = 0x01)
    (hflags : h.flags = 3) (hn : n < 65536) (hr : r.length < n) :
    inspect plugins (h.to_bytes ++ (le32 s ++ (le16 n ++ r))) =
      .error (.Validation (.InvalidHeader mdExceedsMsg)) := by
  unfold inspect
  rw [if_neg (by rw [shape_length]; omega)]
  rw [shape_take16, from_bytes_to_bytes h hm0 hm1 hm2]
  simp only [CrushHeader.has_crc32, CrushHeader.hasMd, hflags,
    show (3 : Nat) &&& 1 = 1 from rfl, show (3 : Nat) &&& 2 = 2 from rfl]
  norm_num
  rw [if_neg (by simp only [List.length_append, to_bytes_length, le32_length]; omega)]
  simp only [parseMetadataSection]
  norm_num
  rw [if_neg (by simp only [to_bytes_length, le32_length, le16_length]; omega)]
  rw [show ((h.to_bytes ++ (le32 s ++ (le16 n ++ r))).drop 20).take 2 =
    le16 n from by
      rw [shape_drop20]
      exact List.take_left' (le16_length n)]
  rw [leNat_le16, Nat.mod_eq_of_lt hn]
  rw [if_pos (by simp only [to_bytes_length, le32_length, le16_length]; omega)]

theorem from_bytes_incomplete_record (b : Nat) :
    FileMetadata.from_bytes [b] =
      .error (.Validation (.InvalidMetadata "Incomplete TLV record")) := rfl

theorem from_bytes_incomplete_value (t len : Nat) (rest : List Nat)
    (h : rest.length < len) :
    FileMetadata.from_bytes (t :: len :: rest) =
      .error (.Validation (.InvalidMetadata "Incomplete TLV value")) := by
  unfold FileMetadata.from_bytes
  rw [show (t :: len :: rest).length = rest.length + 2 from by simp]
  unfold fromBytesAux
  rw [if_pos h]

/-- C5 (counterexample): truncating a successfully compressed
metadata-carrying output to 21 bytes (cutting into the metadata length
field) does not produce an error identifying which section was short:
because `decompress` verifies the checksum before parsing the metadata
section, the truncated input fails with `CrcMismatch` — a value mismatch,
not one of the header / checksum / metadata-length / metadata-value
truncation errors the claim promises. -/
theorem c5_truncation_as_crcmismatch_counterexample :
    compress_with_options id [idPlugin] 0 [] mdOptions =
      .ok [67, 82, 1, 0, 0, 0, 0, 0, 0, 0, 0, 0, 3, 0, 0, 0,
           40, 231, 248, 197, 10, 0, 1, 8, 0, 0, 0, 0, 0, 0, 0, 0] ∧
    decompress [idPlugin]
        (List.take 21 [67, 82, 1, 0, 0, 0, 0, 0, 0, 0, 0, 0, 3, 0, 0, 0,
           40, 231, 248, 197, 10, 0, 1, 8, 0, 0, 0, 0, 0, 0, 0, 0]) =
      .error (.Validation (.CrcMismatch 3321423656 852952723)) := by
  constructor <;> decide

/-- C5 (amended): every truncated decode input is rejected with a
structured error and never causes a panic or an out-of-bounds read (the
embedded decode functions are total), and each section length check that
is reached reports the section that was short: inputs shorter than the
16-byte header, a set checksum flag with fewer than 4 following bytes, a
set metadata flag with fewer than 2 bytes after the checksum, a metadata
length that exceeds the remaining bytes, and TLV records cut inside the
tag/length pair or inside a declared value, each produce their dedicated
error in both `decompress` and `inspect`.  A truncation can however
surface as `CrcMismatch` instead in `decompress`, because the checksum is
verified before the metadata section is parsed (see the counterexample). -/
theorem c5_truncation_structured_errors :
    (∀ (plugins : List Plugin) (input : List Nat), input.length < 16 →
      decompress plugins input =
        .error (.Validation (.InvalidHeader (tooShortMsg input.length))) ∧
      inspect plugins input =
        .error (.Validation (.InvalidHeader (tooShortMsg input.length)))) ∧
    (∀ (plugins : List Plugin) (h : CrushHeader) (rest : List Nat),
      h.magic.b0 = 0x43 → h.magic.b1 = 0x52 → h.magic.b2 = 0x01 →
      h.flags &&& 1 ≠ 0 → rest.length < 4 →
      decompress plugins (h.to_bytes ++ rest) =
        .error (.Validation (.InvalidHeader crcTruncMsg)) ∧
      inspect plugins (h.to_bytes ++ rest) =
        .error (.Validation (.InvalidHeader crcTruncMsg))) ∧
    (∀ (plugins : List Plugin) (h : CrushHeader) (s : Nat) (t : List Nat),
      h.magic.b0 = 0x43 → h.magic.b1 = 0x52 → h.magic.b2 = 0x01 →
      h.flags = 3 → t.length < 2 →
      decompress plugins (h.to_bytes ++ (le32 (crc32 t) ++ t)) =
        .error (.Validation (.InvalidHeader mdLenTruncMsg)) ∧
      inspect plugins (h.to_bytes ++ (le32 s ++ t)) =
        .error (.Validation (.InvalidHeader mdLenTruncMsg))) ∧
    (∀ (plugins : List Plugin) (h : CrushHeader) (s n : Nat) (r : List Nat),
      h.magic.b0 = 0x43 → h.magic.b1 = 0x52 → h.magic.b2 = 0x01 →
      h.flags = 3 → n < 65536 → r.length < n →
      decompress plugins
          (h.to_bytes ++ (le32 (crc32 (le16 n ++ r)) ++ (le16 n ++ r))) =
        .error (.Validation (.InvalidHeader mdExceedsMsg)) ∧
      inspect plugins (h.to_bytes ++ (le32 s ++ (le16 n ++ r))) =
        .error (.Validation (.InvalidHeader mdExceedsMsg))) ∧
    (∀ b : Nat, FileMetadata.from_bytes [b] =
      .error (.Validation (.InvalidMetadata "Incomplete TLV record"))) ∧
    (∀ (t len : Nat) (rest : List Nat), rest.length < len →
      FileMetadata.from_bytes (t :: len :: rest) =
        .error (.Validation (.InvalidMetadata "Incomplete TLV value"))) := by
  refine ⟨?_, ?_, ?_, ?_, ?_, ?_⟩
  · intro plugins input hlen
    exact ⟨decompress_too_short plugins input hlen, inspect_too_short plugins input hlen⟩
  · intro plugins h rest hm0 hm1 hm2 hcf hr
    exact ⟨decompress_crc_trunc plugins h rest hm0 hm1 hm2 hcf hr,
      inspect_crc_trunc plugins h rest hm0 hm1 hm2 hcf hr⟩
  · intro plugins h s t hm0 hm1 hm2 hf ht
    exact ⟨decompress_md_len_trunc plugins h t hm0 hm1 hm2 hf ht,
      inspect_md_len_trunc plugins h s t hm0 hm1 hm2 hf ht⟩
  · intro plugins h s n r hm0 hm1 hm2 hf hn hr
    exact ⟨decompress_md_exceeds plugins h n r hm0 hm1 hm2 hf hn hr,
      inspect_md_exceeds plugins h s n r hm0 hm1 hm2 hf hn hr⟩
  · intro b
    exact from_bytes_incomplete_record b
  · intro t len rest hr
    exact from_bytes_incomplete_value t len rest hr

/-- Witness for C5 (amended) at concrete truncated inputs: a 3-byte input,
a header followed by a 2-byte checksum stub, a metadata container cut at
its length field, a metadata length of 9 with only 3 value bytes left, and
the two TLV truncations. -/
theorem c5_truncation_structured_errors_witness :
    (([1, 2, 3] : List Nat).length < 16 ∧
      decompress [idPlugin] [1, 2, 3] =
        .error (.Validation (.InvalidHeader (tooShortMsg 3)))) ∧
    (decompress [idPlugin]
        ((⟨defaultMagic, 5, 1, (0, 0, 0)⟩ : CrushHeader).to_bytes ++ [9, 9]) =
      .error (.Validation (.InvalidHeader crcTruncMsg))) ∧
    (inspect [idPlugin]
        ((⟨defaultMagic, 5, 3, (0, 0, 0)⟩ : CrushHeader).to_bytes ++ (le32 0 ++ [7])) =
      .error (.Validation (.InvalidHeader mdLenTruncMsg))) ∧
    (inspect [idPlugin]
        ((⟨defaultMagic, 5, 3, (0, 0, 0)⟩ : CrushHeader).to_bytes ++
          (le32 0 ++ (le16 9 ++ [1, 2, 3]))) =
      .error (.Validation (.InvalidHeader mdExceedsMsg))) ∧
    (FileMetadata.from_bytes [1] =
      .error (.Validation (.InvalidMetadata "Incomplete TLV record"))) ∧
    (FileMetadata.from_bytes [1, 8, 0, 0] =
      .error (.Validation (.InvalidMetadata "Incomplete TLV value"))) := by
  have t := c5_truncation_structured_errors
  exact ⟨⟨by decide, (t.1 [idPlugin] [1, 2, 3] (by decide)).1⟩,
    (t.2.1 [idPlugin] ⟨defaultMagic, 5, 1, (0, 0, 0)⟩ [9, 9] rfl rfl rfl
      (by decide) (by decide)).1,
    (t.2.2.1 [idPlugin] ⟨defaultMagic, 5, 3, (0, 0, 0)⟩ 0 [7] rfl rfl rfl rfl
      (by decide)).2,
    (t.2.2.2.1 [idPlugin] ⟨defaultMagic, 5, 3, (0, 0, 0)⟩ 0 9 [1, 2, 3] rfl rfl rfl rfl
      (by decide) (by decide)).2,
    t.2.2.2.2.1 1,
    t.2.2.2.2.2 1 8 [0, 0] (by decide)⟩
